import Mathlib

/-!
Verification development for the IATA BCBP (Bar Coded Boarding Pass) codec.

The model below is a shallow embedding of the parser and encoder found in
src/bcbp/mod.rs, src/bcbp/chunk.rs and src/bcbp/field.rs of the repository.
Input strings are modelled as lists of characters.  The parser first rejects
any input containing a non-ASCII character, so on every code path that touches
the cursor the Rust byte indices coincide with character indices, and the
uppercase copy taken by the Rust code (used only for the length test) has the
same length as the original; the embedding therefore works on the original
character list throughout.  Rust panics (assertion failures and the unwrap
inside fetch_char) are modelled as an explicit error value so that freedom
from panics is a provable statement.
-/

namespace IataBcbp

/-- Field catalog from src/bcbp/field.rs: one constructor per named field. -/
inductive Field where
  | FormatCode
  | AirlineIndividualUse
  | NumberOfLegsEncoded
  | FieldSizeOfVariableSizeField
  | OperatingCarrierPnrCode
  | BeginningOfVersionNumber
  | VersionNumber
  | FieldSizeOfStructuredMessageUnique
  | PassengerName
  | SourceOfCheckIn
  | SourceOfBoardingPassIssuance
  | PassengerDescription
  | DocumentType
  | FieldSizeOfStructuredMessageRepeated
  | SelecteeIndicator
  | MarketingCarrierDesignator
  | FrequentFlyerAirlineDesignator
  | AirlineDesignatorOfBoardingPassIssuer
  | DateOfIssueOfBoardingPass
  | BaggageTagLicensePlateNumbers
  | BeginningOfSecurityData
  | FromCityAirportCode
  | TypeOfSecurityData
  | LengthOfSecurityData
  | SecurityData
  | FirstNonConsecutiveBaggageTagLicensePlateNumbers
  | SecondNonConsecutiveBaggageTagLicensePlateNumbers
  | ToCityAirportCode
  | OperatingCarrierDesignator
  | FlightNumber
  | DateOfFlight
  | CompartmentCode
  | IdAdIndicator
  | SeatNumber
  | CheckInSequenceNumber
  | InternationalDocumentVerification
  | PassengerStatus
  | FreeBaggageAllowance
  | AirlineNumericCode
  | DocumentFormSerialNumber
  | FrequentFlyerNumber
  | ElectronicTicketIndicator
  | FastTrack
deriving DecidableEq

/-- Intrinsic length of each field (0 means variable length), as in Field::len. -/
def Field.len : Field → Nat
  | .FormatCode => 1
  | .AirlineIndividualUse => 0
  | .NumberOfLegsEncoded => 1
  | .FieldSizeOfVariableSizeField => 2
  | .OperatingCarrierPnrCode => 7
  | .BeginningOfVersionNumber => 1
  | .VersionNumber => 1
  | .FieldSizeOfStructuredMessageUnique => 2
  | .PassengerName => 20
  | .SourceOfCheckIn => 1
  | .SourceOfBoardingPassIssuance => 1
  | .PassengerDescription => 1
  | .DocumentType => 1
  | .FieldSizeOfStructuredMessageRepeated => 2
  | .SelecteeIndicator => 1
  | .MarketingCarrierDesignator => 3
  | .FrequentFlyerAirlineDesignator => 3
  | .AirlineDesignatorOfBoardingPassIssuer => 3
  | .DateOfIssueOfBoardingPass => 4
  | .BaggageTagLicensePlateNumbers => 13
  | .BeginningOfSecurityData => 1
  | .FromCityAirportCode => 3
  | .TypeOfSecurityData => 1
  | .LengthOfSecurityData => 2
  | .SecurityData => 0
  | .FirstNonConsecutiveBaggageTagLicensePlateNumbers => 13
  | .SecondNonConsecutiveBaggageTagLicensePlateNumbers => 13
  | .ToCityAirportCode => 3
  | .OperatingCarrierDesignator => 3
  | .FlightNumber => 5
  | .DateOfFlight => 3
  | .CompartmentCode => 1
  | .IdAdIndicator => 1
  | .SeatNumber => 4
  | .CheckInSequenceNumber => 5
  | .InternationalDocumentVerification => 1
  | .PassengerStatus => 1
  | .FreeBaggageAllowance => 3
  | .AirlineNumericCode => 3
  | .DocumentFormSerialNumber => 10
  | .FrequentFlyerNumber => 16
  | .ElectronicTicketIndicator => 1
  | .FastTrack => 1

/-- Error enumeration from src/bcbp/error.rs. -/
inductive Error where
  | MandatoryDataSize
  | InsufficientDataLength
  | InvalidFormatCode (c : Char)
  | InvalidPrefix (f : Field) (c : Char)
  | InvalidLegsCount
  | InvalidFormat
  | CoditionalData
  | CoditionalDataSize
  | UnexpectedEndOfInput (f : Field)
  | SubsectionTooLong
  | ExpectedInteger (f : Field)
  | InvalidCharacters
  | TrailingData
  | AlphaNumExpected
  | AlphaExpected
  | DigitsExpected
deriving DecidableEq

/-- Outcome type extending the library Error with an explicit value for a Rust
panic, so that the unreachable assertion and unwrap branches of chunk.rs are
observable in the model. -/
inductive PErr where
  | e (err : Error)
  | panic
deriving DecidableEq

instance {ε α : Type} [DecidableEq ε] [DecidableEq α] : DecidableEq (Except ε α) :=
  fun x y =>
    match x, y with
    | .error e, .error f => decidable_of_iff (e = f) (by simp)
    | .ok a, .ok b => decidable_of_iff (a = b) (by simp)
    | .error _, .ok _ => isFalse (by simp)
    | .ok _, .error _ => isFalse (by simp)

/-- True exactly on characters whose scalar value is below 128, matching
str::is_ascii on the UTF-8 bytes of the string. -/
def charIsAscii (c : Char) : Bool := c.toNat < 128

/-- ASCII part of the Unicode White_Space set used by Rust str::trim.  All
inputs reaching trimming in the parser are ASCII, so only this part matters. -/
def isRustWs (c : Char) : Bool :=
  c == ' ' || c == '\t' || c == '\n' || c == '\r' ||
    c.toNat == 11 || c.toNat == 12

/-- Model of str::trim_start restricted to ASCII content. -/
def trimStart (l : List Char) : List Char := l.dropWhile isRustWs

/-- Model of str::trim_end restricted to ASCII content. -/
def trimEnd (l : List Char) : List Char := (l.reverse.dropWhile isRustWs).reverse

/-- Model of str::trim restricted to ASCII content. -/
def rustTrim (l : List Char) : List Char := trimEnd (trimStart l)

/-- Model of str::trim_start_matches applied to the character 0. -/
def dropLeading0 (l : List Char) : List Char := l.dropWhile (· == '0')

/-- Value of a character as a digit below the radix, as char::to_digit. -/
def digitValIn (radix : Nat) (c : Char) : Option Nat :=
  let v : Nat :=
    if 48 ≤ c.toNat ∧ c.toNat ≤ 57 then c.toNat - 48
    else if 97 ≤ c.toNat ∧ c.toNat ≤ 122 then c.toNat - 87
    else if 65 ≤ c.toNat ∧ c.toNat ≤ 90 then c.toNat - 55
    else 99
  if v < radix then some v else none

/-- Model of unsigned from_str_radix with an overflow bound: an optional
leading plus sign followed by at least one digit of the radix; a minus sign is
rejected (the sign arm of the Rust implementation is reserved for signed
types, so for usize and u16 a minus is an invalid digit); any intermediate
value above the bound overflows. -/
def rustFromStrRadix (radix bound : Nat) (s : List Char) : Option Nat :=
  let core : List Char → Option Nat := fun ds =>
    if ds.isEmpty then none
    else ds.foldl (fun acc c =>
      match acc, digitValIn radix c with
      | some v, some d => if v * radix + d ≤ bound then some (v * radix + d) else none
      | _, _ => none) (some 0)
  match s with
  | [] => none
  | c :: rest =>
    if c = '+' then core rest
    else core s

/-- Largest usize value on the 64-bit targets the crate builds for. -/
def usizeMax : Nat := 18446744073709551615

/-- Model of u16_from_str_force from src/bcbp/mod.rs: trim, strip leading
zeros, parse in the radix, and fall back to 0 when parsing fails. -/
def u16_from_str_force (src : List Char) (radix : Nat) : Nat :=
  (rustFromStrRadix radix 65535 (dropLeading0 (rustTrim src))).getD 0

/-- Model of u32_from_str_opt from src/bcbp/mod.rs (despite its name it parses
into u16): trim, strip leading zeros, parse; None when parsing fails. -/
def u32_from_str_opt (src : List Char) (radix : Nat) : Option Nat :=
  rustFromStrRadix radix 65535 (dropLeading0 (rustTrim src))

/-- Model of seat_opt from src/bcbp/mod.rs: trim, strip leading zeros, and
report the seat as absent when at most one character remains. -/
def seat_opt (seat : List Char) : Option (List Char) :=
  let tmp := dropLeading0 (rustTrim seat)
  if tmp.length ≤ 1 then none else some tmp

/-- Model of bcbp_name from src/bcbp/mod.rs: split at the first slash; the
part before it (right-trimmed) is the last name, the part after it
(right-trimmed) is the first name, absent when empty or when there is no
slash. -/
def bcbp_name (input : List Char) : List Char × Option (List Char) :=
  let lastRaw := input.takeWhile (fun c => !(c == '/'))
  if lastRaw.length = input.length then (trimEnd input, none)
  else
    let rest := input.drop (lastRaw.length + 1)
    let f := trimEnd rest
    (trimEnd lastRaw, if f.isEmpty then none else some f)

/-- Passenger type codes, as PaxType in src/bcbp/mod.rs. -/
inductive PaxType where
  | None
  | Adult
  | Male
  | Female
  | Child
  | Infant
  | CabinBaggage
  | AdultWithInfant
  | Other (c : Char)
deriving DecidableEq

/-- PaxType::from_char, matching the code (note that the code maps the
character 6 to CabinBaggage and 7 to AdultWithInfant). -/
def PaxType.from_char (t : Char) : PaxType :=
  if t = ' ' then .None
  else if t = '0' then .Adult
  else if t = '1' then .Male
  else if t = '2' then .Female
  else if t = '3' then .Child
  else if t = '4' then .Infant
  else if t = '6' then .CabinBaggage
  else if t = '7' then .AdultWithInfant
  else .Other t

/-- One flight leg, as struct Leg; Rust defaults are the field initialisers. -/
structure Leg where
  pnr : List Char := []
  src_airport : List Char := []
  dst_airport : List Char := []
  airline : List Char := []
  flight_number : List Char := []
  flight_day : Nat := 0
  compartment : Char := Char.ofNat 0
  seat : Option (List Char) := none
  airline_num : Option Nat := none
  sequence : Option Nat := none
  pax_status : Char := Char.ofNat 0
  doc_number : Option (List Char) := none
  marketing_airline : Option (List Char) := none
  frequent_flyer_airline : Option (List Char) := none
  frequent_flyer_number : Option (List Char) := none
  fast_track : Option Char := none
  bag_allowance : Option (List Char) := none
  var : Option (List Char) := none
deriving DecidableEq

/-- The whole boarding pass record, as struct BCBP. -/
structure BCBP where
  version : Option Char := none
  pax_type : PaxType := .None
  doc_type : Option Char := none
  name_first : List Char := []
  name_last : List Char := []
  ticket_flag : Char := Char.ofNat 0
  legs : List Leg := []
  bagtags : List (List Char) := []
  checkin_src : Option Char := none
  boardingpass_src : Option Char := none
  boardingpass_issued : Option Nat := none
  boardingpass_airline : Option (List Char) := none
  security_data_type : Option Char := none
  security_data : Option (List Char) := none
deriving DecidableEq

/-- The forward-only cursor of src/bcbp/chunk.rs: a view of the remaining
unconsumed input. -/
structure Chunk where
  input : List Char
deriving DecidableEq

namespace Chunk

/-- Chunk::eof. -/
def eof (c : Chunk) : Bool := c.input.isEmpty

/-- Chunk::len. -/
def len (c : Chunk) : Nat := c.input.length

/-- Chunk::fetch_chunk: carve a sub-chunk of exactly n characters; the
assertion for n = 0 is modelled as a panic. -/
def fetch_chunk (c : Chunk) (n : Nat) : Except PErr (Chunk × Chunk) :=
  if n = 0 then .error .panic
  else if c.len < n then .error (.e .SubsectionTooLong)
  else .ok (⟨c.input.take n⟩, ⟨c.input.drop n⟩)

/-- Chunk::fetch_str_len: read exactly n characters for the field; the two
assertions (n positive, n compatible with the intrinsic length) are panics. -/
def fetch_str_len (c : Chunk) (f : Field) (n : Nat) : Except PErr (List Char × Chunk) :=
  if n = 0 then .error .panic
  else if ¬ (f.len = 0 ∨ f.len = n) then .error .panic
  else if c.len < n then .error (.e (.UnexpectedEndOfInput f))
  else .ok (c.input.take n, ⟨c.input.drop n⟩)

/-- Chunk::fetch_str: read a fixed-length field at its intrinsic length; the
assertion that the field is not variable-length is a panic. -/
def fetch_str (c : Chunk) (f : Field) : Except PErr (List Char × Chunk) :=
  if f.len = 0 then .error .panic else c.fetch_str_len f f.len

/-- Chunk::fetch_str_opt: None exactly at end of input, otherwise the result
of fetch_str wrapped in some. -/
def fetch_str_opt (c : Chunk) (f : Field) : Except PErr (Option (List Char) × Chunk) :=
  if f.len = 0 then .error .panic
  else if c.eof then .ok (none, c)
  else
    match c.fetch_str f with
    | .error e => .error e
    | .ok (v, c') => .ok (some v, c')

/-- Chunk::fetch_char: the single character of a length-1 field; the length
assertion and the unwrap on the character iterator are panics. -/
def fetch_char (c : Chunk) (f : Field) : Except PErr (Char × Chunk) :=
  if f.len ≠ 1 then .error .panic
  else
    match c.fetch_str f with
    | .error e => .error e
    | .ok (v, c') =>
      match v.head? with
      | none => .error .panic
      | some ch => .ok (ch, c')

/-- Chunk::fetch_char_opt: None exactly at end of input, otherwise the result
of fetch_char wrapped in some. -/
def fetch_char_opt (c : Chunk) (f : Field) : Except PErr (Option Char × Chunk) :=
  if f.len ≠ 1 then .error .panic
  else if c.eof then .ok (none, c)
  else
    match c.fetch_char f with
    | .error e => .error e
    | .ok (ch, c') => .ok (some ch, c')

/-- Chunk::fetch_usize: read the field and parse it in the radix; parse
failure is the hard error ExpectedInteger. -/
def fetch_usize (c : Chunk) (f : Field) (radix : Nat) : Except PErr (Nat × Chunk) :=
  match c.fetch_str f with
  | .error e => .error e
  | .ok (v, c') =>
    match rustFromStrRadix radix usizeMax v with
    | some n => .ok (n, c')
    | none => .error (.e (.ExpectedInteger f))

end Chunk

/-- The leading fields of the structured message unique block (first leg
only): the six reads of lines 363-377 of src/bcbp/mod.rs, all optional; the
remainder of the carved unique chunk is discarded by the caller. -/
def parseUniqueFields (b : BCBP) (uc : Chunk) : Except PErr BCBP :=
  match uc.fetch_char_opt .PassengerDescription with
  | .error e => .error e
  | .ok (pd, uc) =>
  match uc.fetch_char_opt .SourceOfCheckIn with
  | .error e => .error e
  | .ok (cs, uc) =>
  match uc.fetch_char_opt .SourceOfBoardingPassIssuance with
  | .error e => .error e
  | .ok (bps, uc) =>
  match uc.fetch_str_opt .DateOfIssueOfBoardingPass with
  | .error e => .error e
  | .ok (bpi, uc) =>
  match uc.fetch_char_opt .DocumentType with
  | .error e => .error e
  | .ok (dt, uc) =>
  match uc.fetch_str_opt .AirlineDesignatorOfBoardingPassIssuer with
  | .error e => .error e
  | .ok (ba, _) =>
    .ok { b with
          pax_type := (pd.map PaxType.from_char).getD PaxType.None,
          checkin_src := cs,
          boardingpass_src := bps,
          boardingpass_issued := bpi.map (fun x => u16_from_str_force x 10),
          doc_type := dt,
          boardingpass_airline := ba.map rustTrim }

/-- Root-level conditional fields of the first leg (lines 346-395 of
src/bcbp/mod.rs): version prefix and version character, then the optional
structured message unique block. -/
def parseUniqueSection (b : BCBP) (ci : Chunk) : Except PErr (BCBP × Chunk) :=
  match ci.fetch_char .BeginningOfVersionNumber with
  | .error e => .error e
  | .ok (pfx, ci) =>
    if pfx ≠ '<' ∧ pfx ≠ '>' then
      .error (.e (.InvalidPrefix .BeginningOfVersionNumber pfx))
    else
      match ci.fetch_char .VersionNumber with
      | .error e => .error e
      | .ok (ver, ci) =>
        let b := { b with version := some ver }
        if ci.len > 0 then
          match ci.fetch_usize .FieldSizeOfStructuredMessageUnique 16 with
          | .error e => .error e
          | .ok (n, ci) =>
            if n > 0 then
              match ci.fetch_chunk n with
              | .error e => .error e
              | .ok (uc, ci) =>
                match parseUniqueFields b uc with
                | .error e => .error e
                | .ok b => .ok (b, ci)
            else .ok (b, ci)
        else .ok (b, ci)

/-- The root-level conditional step of the per-leg loop: the version and
unique block are read only for the first leg (the test at line 346 of
src/bcbp/mod.rs). -/
def parseLegUniqueStep (leg_index : Nat) (b : BCBP) (ci : Chunk) :
    Except PErr (BCBP × Chunk) :=
  if leg_index = 0 then parseUniqueSection b ci else .ok (b, ci)

/-- The conditional fields of the structured message repeated block (lines
405-429 of src/bcbp/mod.rs), all optional; the remainder of the carved
repeated chunk is discarded by the caller. -/
def parseRepeatedFields (leg : Leg) (rc : Chunk) : Except PErr Leg :=
  match rc.fetch_str_opt .AirlineNumericCode with
  | .error e => .error e
  | .ok (an, rc) =>
  match rc.fetch_str_opt .DocumentFormSerialNumber with
  | .error e => .error e
  | .ok (dn, rc) =>
  match rc.fetch_char_opt .SelecteeIndicator with
  | .error e => .error e
  | .ok (_sel, rc) =>
  match rc.fetch_char_opt .InternationalDocumentVerification with
  | .error e => .error e
  | .ok (_idv, rc) =>
  match rc.fetch_str_opt .MarketingCarrierDesignator with
  | .error e => .error e
  | .ok (mc, rc) =>
  match rc.fetch_str_opt .FrequentFlyerAirlineDesignator with
  | .error e => .error e
  | .ok (ffa, rc) =>
  match rc.fetch_str_opt .FrequentFlyerNumber with
  | .error e => .error e
  | .ok (ffn, rc) =>
  match rc.fetch_char_opt .IdAdIndicator with
  | .error e => .error e
  | .ok (_idad, rc) =>
  match rc.fetch_str_opt .FreeBaggageAllowance with
  | .error e => .error e
  | .ok (bag, rc) =>
  match rc.fetch_char_opt .FastTrack with
  | .error e => .error e
  | .ok (ft, _) =>
    .ok { leg with
          airline_num := an.map (fun x => u16_from_str_force (rustTrim x) 10),
          doc_number := dn.map rustTrim,
          marketing_airline := mc.map rustTrim,
          frequent_flyer_airline := ffa.map rustTrim,
          frequent_flyer_number := ffn,
          bag_allowance := bag.map rustTrim,
          fast_track := ft }

/-- Conditional fields common to all legs (lines 399-431 of src/bcbp/mod.rs):
the optional structured message repeated block inside the conditional item. -/
def parseRepeatedSection (leg : Leg) (ci : Chunk) : Except PErr (Leg × Chunk) :=
  if ci.len > 0 then
    match ci.fetch_usize .FieldSizeOfStructuredMessageRepeated 16 with
    | .error e => .error e
    | .ok (n, ci) =>
      if n > 0 then
        match ci.fetch_chunk n with
        | .error e => .error e
        | .ok (rc, ci) =>
          match parseRepeatedFields leg rc with
          | .error e => .error e
          | .ok leg => .ok (leg, ci)
      else .ok (leg, ci)
  else .ok (leg, ci)

/-- Remaining text of the conditional item is ascribed to airline individual
use (lines 434-439 of src/bcbp/mod.rs). -/
def parseVarSection (leg : Leg) (ci : Chunk) : Except PErr Leg :=
  if ci.len > 0 then
    match ci.fetch_str_len .AirlineIndividualUse ci.len with
    | .error e => .error e
    | .ok (body, _) => .ok { leg with var := some body }
  else .ok leg

/-- The ten mandatory fields common to all legs, in wire order (lines 313-330
of src/bcbp/mod.rs). -/
def parseLegMandatory (c : Chunk) : Except PErr (Leg × Chunk) :=
  match c.fetch_str .OperatingCarrierPnrCode with
  | .error e => .error e
  | .ok (pnr, c) =>
  match c.fetch_str .FromCityAirportCode with
  | .error e => .error e
  | .ok (srcA, c) =>
  match c.fetch_str .ToCityAirportCode with
  | .error e => .error e
  | .ok (dstA, c) =>
  match c.fetch_str .OperatingCarrierDesignator with
  | .error e => .error e
  | .ok (al, c) =>
  match c.fetch_str .FlightNumber with
  | .error e => .error e
  | .ok (fno, c) =>
  match c.fetch_str .DateOfFlight with
  | .error e => .error e
  | .ok (day, c) =>
  match c.fetch_char .CompartmentCode with
  | .error e => .error e
  | .ok (comp, c) =>
  match c.fetch_str .SeatNumber with
  | .error e => .error e
  | .ok (seat4, c) =>
  match c.fetch_str .CheckInSequenceNumber with
  | .error e => .error e
  | .ok (seq5, c) =>
  match c.fetch_char .PassengerStatus with
  | .error e => .error e
  | .ok (st, c) =>
    .ok ({ pnr := rustTrim pnr,
           src_airport := rustTrim srcA,
           dst_airport := rustTrim dstA,
           airline := rustTrim al,
           flight_number := rustTrim fno,
           flight_day := u16_from_str_force day 10,
           compartment := comp,
           seat := seat_opt (rustTrim seat4),
           sequence := u32_from_str_opt seq5 10,
           pax_status := st }, c)

/-- One iteration of the per-leg loop of BCBP::from: mandatory fields, the
2-hex-digit conditional block size, and the conditional item when present. -/
def parseLeg (leg_index : Nat) (b : BCBP) (c : Chunk) : Except PErr (BCBP × Chunk) :=
  match parseLegMandatory c with
  | .error e => .error e
  | .ok (leg, c) =>
  match c.fetch_usize .FieldSizeOfVariableSizeField 16 with
  | .error e => .error e
  | .ok (csize, c) =>
    if csize > c.len then .error (.e .CoditionalDataSize)
    else if csize > 0 then
      match c.fetch_chunk csize with
      | .error e => .error e
      | .ok (ci, c) =>
        match parseLegUniqueStep leg_index b ci with
        | .error e => .error e
        | .ok (b, ci) =>
          match parseRepeatedSection leg ci with
          | .error e => .error e
          | .ok (leg, ci) =>
            match parseVarSection leg ci with
            | .error e => .error e
            | .ok leg => .ok ({ b with legs := b.legs ++ [leg] }, c)
    else .ok ({ b with legs := b.legs ++ [leg] }, c)

/-- The per-leg loop: parse n legs starting at the given leg index. -/
def parseLegsFrom : Nat → Nat → BCBP → Chunk → Except PErr (BCBP × Chunk)
  | _, 0, b, c => .ok (b, c)
  | i, Nat.succ n, b, c =>
    match parseLeg i b c with
    | .error e => .error e
    | .ok (b, c) => parseLegsFrom (i + 1) n b c

/-- The trailing security data section (lines 566-584 of src/bcbp/mod.rs). -/
def parseSecurity (b : BCBP) (c : Chunk) : Except PErr (BCBP × Chunk) :=
  if c.len > 0 then
    match c.fetch_char .BeginningOfSecurityData with
    | .error e => .error e
    | .ok (pfx, c) =>
      if pfx ≠ '^' then .error (.e (.InvalidPrefix .BeginningOfSecurityData pfx))
      else
        match c.fetch_char_opt .TypeOfSecurityData with
        | .error e => .error e
        | .ok (ty, c) =>
          let b := { b with security_data_type := ty }
          if c.len > 0 then
            match c.fetch_usize .LengthOfSecurityData 16 with
            | .error e => .error e
            | .ok (n, c) =>
              if n > 0 then
                match c.fetch_str_len .SecurityData n with
                | .error e => .error e
                | .ok (body, c) => .ok ({ b with security_data := some body }, c)
              else .ok (b, c)
          else .ok (b, c)
  else .ok (b, c)

/-- BCBP::from up to (but not including) the final trailing-data check,
returning the record together with the final cursor state.  The uppercase
copy taken by the Rust code is used only for the length test and ASCII
uppercasing preserves length, so it is not modelled. -/
def BCBP.fromCore (s : List Char) : Except PErr (BCBP × Chunk) :=
  if ¬ (s.all charIsAscii) then .error (.e .InvalidCharacters)
  else if s.length < 60 then .error (.e .MandatoryDataSize)
  else
    let c : Chunk := ⟨s⟩
    match c.fetch_char .FormatCode with
    | .error e => .error e
    | .ok (code, c) =>
      if code ≠ 'M' then .error (.e (.InvalidFormatCode code))
      else
        match c.fetch_usize .NumberOfLegsEncoded 10 with
        | .error e => .error e
        | .ok (legs, c) =>
          if legs < 1 ∨ legs > 9 then .error (.e .InvalidLegsCount)
          else
            match c.fetch_str .PassengerName with
            | .error e => .error e
            | .ok (nameF, c) =>
              match c.fetch_char .ElectronicTicketIndicator with
              | .error e => .error e
              | .ok (tf, c) =>
                let nres := bcbp_name nameF
                let b : BCBP :=
                  { name_last := nres.1,
                    name_first := rustTrim (nres.2.getD []),
                    ticket_flag := tf }
                match parseLegsFrom 0 legs b c with
                | .error e => .error e
                | .ok (b, c) => parseSecurity b c

/-- BCBP::from: the full decoder, failing with TrailingData when input
remains after the security step. -/
def BCBP.fromInput (s : List Char) : Except PErr BCBP :=
  match BCBP.fromCore s with
  | .error e => .error e
  | .ok (b, c) => if ¬ c.eof then .error (.e .TrailingData) else .ok b

/-- Decimal rendering of a Nat, as the Rust Display of unsigned integers. -/
def natDec (n : Nat) : List Char := Nat.toDigits 10 n

/-- Left padding with a fill character to a minimum width. -/
def padLeft (n : Nat) (fill : Char) (l : List Char) : List Char :=
  List.replicate (n - l.length) fill ++ l

/-- Right padding with a fill character to a minimum width. -/
def padRight (n : Nat) (fill : Char) (l : List Char) : List Char :=
  l ++ List.replicate (n - l.length) fill

/-- Alignment of a flight day value: empty when 0, otherwise the decimal
value zero-padded on the left to three characters. -/
def dayAlignedOf (n : Nat) : List Char :=
  if n = 0 then [] else padLeft 3 '0' (natDec n)

/-- Alignment of an optional seat: empty when absent, otherwise zero-padded
on the left to four characters. -/
def seatAlignedOf : Option (List Char) → List Char
  | some v => padLeft 4 '0' v
  | none => []

/-- Alignment of an optional sequence number: empty when absent, otherwise
the decimal value zero-padded on the left to four characters. -/
def seqAlignedOf : Option Nat → List Char
  | some n => padLeft 4 '0' (natDec n)
  | none => []

/-- Leg::flight_day_aligned. -/
def Leg.flight_day_aligned (s : Leg) : List Char := dayAlignedOf s.flight_day

/-- Leg::seat_aligned. -/
def Leg.seat_aligned (s : Leg) : List Char := seatAlignedOf s.seat

/-- Leg::sequence_aligned. -/
def Leg.sequence_aligned (s : Leg) : List Char := seqAlignedOf s.sequence

/-- The per-leg output of BCBP::build (line 252 of src/bcbp/mod.rs): the ten
mandatory fields with their padding and alignment, followed by the literal
conditional-size placeholder 00. -/
def Leg.render (s : Leg) : List Char :=
  padRight 7 ' ' s.pnr ++ padRight 3 ' ' s.src_airport ++ padRight 3 ' ' s.dst_airport
    ++ padRight 3 ' ' s.airline ++ padRight 5 ' ' s.flight_number
    ++ padRight 3 ' ' s.flight_day_aligned ++ [s.compartment]
    ++ padLeft 4 ' ' s.seat_aligned ++ padRight 5 ' ' s.sequence_aligned
    ++ [s.pax_status] ++ ['0', '0']

/-- BCBP::name: LAST/FIRST truncated to twenty characters. -/
def BCBP.name (b : BCBP) : List Char := (b.name_last ++ '/' :: b.name_first).take 20

/-- BCBP::name_last accessor. -/
def BCBP.name_lastA (b : BCBP) : List Char := b.name_last

/-- BCBP::name_first accessor. -/
def BCBP.name_firstA (b : BCBP) : List Char := b.name_first

/-- BCBP::legs_count: the number of legs clamped to nine. -/
def BCBP.legs_count (b : BCBP) : Nat := Nat.min b.legs.length 9

/-- BCBP::build: the encoder.  The Rust function always returns Ok, so the
model returns the string itself. -/
def BCBP.build (b : BCBP) : List Char :=
  'M' :: (natDec b.legs_count ++ padRight 20 ' ' b.name
    ++ b.ticket_flag :: (b.legs.map Leg.render).flatten)

/-- The decimal value of the leg-count digit at offset 1 of an input, when
that character is a decimal digit. -/
def legCountDigit (s : List Char) : Option Nat :=
  match s[1]? with
  | some c => if 48 ≤ c.toNat ∧ c.toNat ≤ 57 then some (c.toNat - 48) else none
  | none => none

/-- A minimal one-leg record layout: format code M, leg count 1, the twenty
character name field, the e-ticket flag, the ten mandatory leg fields and the
literal conditional size 00, with no security section. -/
def minimal60 (nameF : List Char) (tf : Char) (pnrF srcF dstF alF fnoF dayF : List Char)
    (comp : Char) (seatF seqF : List Char) (st : Char) : List Char :=
  'M' :: '1' :: (nameF ++ tf :: (pnrF ++ (srcF ++ (dstF ++ (alF ++ (fnoF ++ (dayF
    ++ comp :: (seatF ++ (seqF ++ st :: ['0', '0'])))))))))

/-- The concrete boarding pass string of the spec scenario. -/
def sampleInput : String :=
  "M1JOHN/SMITH JORDAN   EABCDEF JFKSVOSU 1234A001Y001Z0007 000"

/-- The record that decoding sampleInput produces. -/
def sampleRecord : BCBP :=
  { name_last := "JOHN".toList,
    name_first := "SMITH JORDAN".toList,
    ticket_flag := 'E',
    legs := [{ pnr := "ABCDEF".toList,
               src_airport := "JFK".toList,
               dst_airport := "SVO".toList,
               airline := "SU".toList,
               flight_number := "1234A".toList,
               flight_day := 1,
               compartment := 'Y',
               seat := some "1Z".toList,
               sequence := some 7,
               pax_status := '0' }] }

/-- A minimal valid 60-byte input whose name field has no slash: the decoder
accepts it but the encoder appends a slash and re-pads, changing the string. -/
def c1BadInput : String :=
  "M1JOHN                EABCDEF JFKSVOSU 1234A001Y001Z0007 000"

/-- A 60-byte ASCII input with leg-count digit 0 but format code X. -/
def c3FmtInput : String :=
  "X0JOHN/SMITH JORDAN   EABCDEF JFKSVOSU 1234A001Y001Z0007 000"

/-- The sample input with leg-count digit replaced by 0. -/
def c3ZeroInput : String :=
  "M0JOHN/SMITH JORDAN   EABCDEF JFKSVOSU 1234A001Y001Z0007 000"

/-- The sample input with leg-count digit replaced by the letter A. -/
def c3LetterInput : String :=
  "MAJOHN/SMITH JORDAN   EABCDEF JFKSVOSU 1234A001Y001Z0007 000"

/-- The leg produced by parsing thirty-five space characters of mandatory
leg data. -/
def blankLeg : Leg := { compartment := ' ', pax_status := ' ' }

/-- The leg produced by parsing mandatory leg data whose seat field is 000A:
the seat strips down to the single character A and is dropped. -/
def c10SeatLeg : Leg :=
  { pnr := "ABCDEF".toList,
    src_airport := "JFK".toList,
    dst_airport := "SVO".toList,
    airline := "SU".toList,
    flight_number := "1234A".toList,
    flight_day := 1,
    compartment := 'Y',
    seat := none,
    sequence := some 7,
    pax_status := '0' }

/-! Helper lemmas about the cursor operations. -/

theorem take_len_append (l₁ l₂ : List Char) (n : Nat) (h : l₁.length = n) :
    (l₁ ++ l₂).take n = l₁ := by
  subst h; simp

theorem drop_len_append (l₁ l₂ : List Char) (n : Nat) (h : l₁.length = n) :
    (l₁ ++ l₂).drop n = l₂ := by
  subst h; simp

/-- fetch_str on a cursor whose input starts with a segment of exactly the
intrinsic length consumes that segment. -/
theorem fetch_str_exact (f : Field) (v rest : List Char)
    (hv : v.length = f.len) (h0 : f.len ≠ 0) :
    Chunk.fetch_str ⟨v ++ rest⟩ f = .ok (v, ⟨rest⟩) := by
  unfold Chunk.fetch_str Chunk.fetch_str_len Chunk.len
  rw [if_neg h0, if_neg h0, if_neg (by simp), if_neg]
  · rw [take_len_append _ _ _ hv, drop_len_append _ _ _ hv]
  · simp [← hv]

/-- fetch_char on a nonempty cursor for a length-1 field consumes exactly the
head character. -/
theorem fetch_char_cons (f : Field) (ch : Char) (rest : List Char) (h1 : f.len = 1) :
    Chunk.fetch_char ⟨ch :: rest⟩ f = .ok (ch, ⟨rest⟩) := by
  unfold Chunk.fetch_char
  rw [if_neg (by simp [h1])]
  have : Chunk.fetch_str ⟨ch :: rest⟩ f = .ok ([ch], ⟨rest⟩) := by
    have := fetch_str_exact f [ch] rest (by simp [h1]) (by simp [h1])
    simpa using this
  rw [this]
  rfl

/-- fetch_usize on a cursor whose input starts with a parsable segment of the
intrinsic length returns the parsed value. -/
theorem fetch_usize_exact (f : Field) (radix : Nat) (v rest : List Char) (n : Nat)
    (hv : v.length = f.len) (h0 : f.len ≠ 0)
    (hp : rustFromStrRadix radix usizeMax v = some n) :
    Chunk.fetch_usize ⟨v ++ rest⟩ f radix = .ok (n, ⟨rest⟩) := by
  unfold Chunk.fetch_usize
  rw [fetch_str_exact f v rest hv h0]
  simp [hp]

/-- fetch_usize fails with ExpectedInteger when the segment of the intrinsic
length does not parse in the radix. -/
theorem fetch_usize_bad (f : Field) (radix : Nat) (v rest : List Char)
    (hv : v.length = f.len) (h0 : f.len ≠ 0)
    (hp : rustFromStrRadix radix usizeMax v = none) :
    Chunk.fetch_usize ⟨v ++ rest⟩ f radix = .error (.e (.ExpectedInteger f)) := by
  unfold Chunk.fetch_usize
  rw [fetch_str_exact f v rest hv h0]
  simp [hp]

theorem dropWhile_idem (p : Char → Bool) (l : List Char) :
    (l.dropWhile p).dropWhile p = l.dropWhile p := by
  induction l with
  | nil => rfl
  | cons a t ih =>
    by_cases hp : p a
    · simp [List.dropWhile_cons, hp, ih]
    · simp [List.dropWhile_cons, hp]

theorem trimStart_idem (l : List Char) : trimStart (trimStart l) = trimStart l :=
  dropWhile_idem isRustWs l

theorem trimEnd_idem (l : List Char) : trimEnd (trimEnd l) = trimEnd l := by
  unfold trimEnd
  rw [List.reverse_reverse, dropWhile_idem]

theorem trimEnd_prefix (l : List Char) : trimEnd l <+: l := by
  have h := List.dropWhile_suffix (l := l.reverse) isRustWs
  have h2 := h.reverse
  rwa [List.reverse_reverse] at h2

theorem trimStart_trimEnd_of_fix (m : List Char) (h : trimStart m = m) :
    trimStart (trimEnd m) = trimEnd m := by
  cases hm : trimEnd m with
  | nil => rfl
  | cons x xs =>
    have hpre : trimEnd m <+: m := trimEnd_prefix m
    rw [hm] at hpre
    obtain ⟨s, hs⟩ := hpre
    have hx : isRustWs x = false := by
      by_contra hxx
      have hxx' : isRustWs x = true := by simpa using hxx
      rw [← hs] at h
      unfold trimStart at h
      rw [List.cons_append, List.dropWhile_cons, if_pos (by simp [hxx'])] at h
      have hlen := congrArg List.length h
      have hle : (List.dropWhile isRustWs (xs ++ s)).length ≤ (xs ++ s).length :=
        (List.dropWhile_suffix isRustWs).length_le
      simp [List.length_append] at hlen hle
      omega
    unfold trimStart
    rw [List.dropWhile_cons, if_neg (by simp [hx])]

theorem rustTrim_idem (l : List Char) : rustTrim (rustTrim l) = rustTrim l := by
  unfold rustTrim
  rw [trimStart_trimEnd_of_fix (trimStart l) (trimStart_idem l)]
  exact trimEnd_idem _

/-- The ten mandatory leg fields parsed from an input decomposed into its
positional segments: the parse always succeeds and applies exactly the
normalisations of lines 313-330 of src/bcbp/mod.rs. -/
theorem parseLegMandatory_spec (p s3 d3 a3 f5 day : List Char) (comp : Char)
    (seat4 seq5 : List Char) (st : Char) (rest : List Char)
    (hp : p.length = 7) (hs : s3.length = 3) (hd : d3.length = 3) (ha : a3.length = 3)
    (hf : f5.length = 5) (hday : day.length = 3) (hseat : seat4.length = 4)
    (hseq : seq5.length = 5) :
    parseLegMandatory
        ⟨p ++ (s3 ++ (d3 ++ (a3 ++ (f5 ++ (day ++ comp :: (seat4 ++ (seq5 ++ st :: rest)))))))⟩ =
      .ok ({ pnr := rustTrim p, src_airport := rustTrim s3, dst_airport := rustTrim d3,
             airline := rustTrim a3, flight_number := rustTrim f5,
             flight_day := u16_from_str_force day 10, compartment := comp,
             seat := seat_opt (rustTrim seat4), sequence := u32_from_str_opt seq5 10,
             pax_status := st }, ⟨rest⟩) := by
  unfold parseLegMandatory
  rw [fetch_str_exact .OperatingCarrierPnrCode p _ hp (by decide)]
  dsimp only
  rw [fetch_str_exact .FromCityAirportCode s3 _ hs (by decide)]
  dsimp only
  rw [fetch_str_exact .ToCityAirportCode d3 _ hd (by decide)]
  dsimp only
  rw [fetch_str_exact .OperatingCarrierDesignator a3 _ ha (by decide)]
  dsimp only
  rw [fetch_str_exact .FlightNumber f5 _ hf (by decide)]
  dsimp only
  rw [fetch_str_exact .DateOfFlight day _ hday (by decide)]
  dsimp only
  rw [fetch_char_cons .CompartmentCode comp _ (by decide)]
  dsimp only
  rw [fetch_str_exact .SeatNumber seat4 _ hseat (by decide)]
  dsimp only
  rw [fetch_str_exact .CheckInSequenceNumber seq5 _ hseq (by decide)]
  dsimp only
  rw [fetch_char_cons .PassengerStatus st _ (by decide)]

theorem fetch_str_inv (f : Field) (c : Chunk) (v : List Char) (c' : Chunk)
    (h : c.fetch_str f = .ok (v, c')) : c.input = v ++ c'.input ∧ v.length = f.len := by
  unfold Chunk.fetch_str Chunk.fetch_str_len at h
  split at h
  · cases h
  · split at h
    · cases h
    · split at h
      · cases h
      · have hv := (Prod.mk.injEq _ _ _ _).mp (Except.ok.inj h)
        rename_i h0 hcomp hlen
        unfold Chunk.len at hlen
        constructor
        · rw [← hv.1, ← hv.2]
          exact (List.take_append_drop f.len c.input).symm
        · rw [← hv.1]
          simp [List.length_take]
          omega

theorem fetch_char_inv (f : Field) (c : Chunk) (ch : Char) (c' : Chunk) (h1 : f.len = 1)
    (h : c.fetch_char f = .ok (ch, c')) : c.input = ch :: c'.input := by
  unfold Chunk.fetch_char at h
  rw [if_neg (by simp [h1])] at h
  cases hfs : c.fetch_str f with
  | error e => rw [hfs] at h; cases h
  | ok p =>
    obtain ⟨v, c2⟩ := p
    rw [hfs] at h
    have hinv := fetch_str_inv f c v c2 hfs
    have hv1 : v.length = 1 := by rw [hinv.2, h1]
    match v, hv1 with
    | [x], _ =>
      dsimp only [List.head?] at h
      have hx := (Prod.mk.injEq _ _ _ _).mp (Except.ok.inj h)
      rw [hinv.1, ← hx.1, ← hx.2]
      rfl

theorem fetch_usize_inv1 (f : Field) (radix : Nat) (c : Chunk) (n : Nat) (c' : Chunk)
    (h1 : f.len = 1) (h : c.fetch_usize f radix = .ok (n, c')) :
    ∃ d, c.input = d :: c'.input ∧ rustFromStrRadix radix usizeMax [d] = some n := by
  unfold Chunk.fetch_usize at h
  cases hfs : c.fetch_str f with
  | error e => rw [hfs] at h; cases h
  | ok p =>
    obtain ⟨v, c2⟩ := p
    rw [hfs] at h
    have hinv := fetch_str_inv f c v c2 hfs
    have hv1 : v.length = 1 := by rw [hinv.2, h1]
    match v, hv1 with
    | [x], _ =>
      dsimp only at h
      cases hr : rustFromStrRadix radix usizeMax [x] with
      | none => rw [hr] at h; cases h
      | some m =>
        rw [hr] at h
        have hx := (Prod.mk.injEq _ _ _ _).mp (Except.ok.inj h)
        exact ⟨x, by rw [hinv.1, hx.2]; rfl, by rw [hr, hx.1]⟩



theorem parseUniqueFields_legs (b : BCBP) (uc : Chunk) (b' : BCBP)
    (h : parseUniqueFields b uc = .ok b') : b'.legs = b.legs := by
  unfold parseUniqueFields at h
  repeat' split at h
  all_goals cases h
  all_goals rfl

theorem parseUniqueSection_legs (b : BCBP) (ci : Chunk) (b' : BCBP) (ci' : Chunk)
    (h : parseUniqueSection b ci = .ok (b', ci')) : b'.legs = b.legs := by
  unfold parseUniqueSection at h
  simp only [] at h
  repeat' split at h
  all_goals cases h
  all_goals try rfl
  all_goals rw [parseUniqueFields_legs _ _ _ (by assumption)]

theorem parseLegUniqueStep_legs (i : Nat) (b : BCBP) (ci : Chunk) (b' : BCBP) (ci' : Chunk)
    (h : parseLegUniqueStep i b ci = .ok (b', ci')) : b'.legs = b.legs := by
  unfold parseLegUniqueStep at h
  split at h
  · exact parseUniqueSection_legs _ _ _ _ h
  · cases h; rfl

theorem parseLeg_length (i : Nat) (b : BCBP) (c : Chunk) (b' : BCBP) (c' : Chunk)
    (h : parseLeg i b c = .ok (b', c')) : b'.legs.length = b.legs.length + 1 := by
  unfold parseLeg at h
  repeat' split at h
  all_goals cases h
  all_goals simp only [List.length_append, List.length_cons, List.length_nil]
  all_goals first
    | rfl
    | rw [parseLegUniqueStep_legs _ _ _ _ _ (by assumption)]

theorem parseLegsFrom_length (n : Nat) : ∀ (i : Nat) (b : BCBP) (c : Chunk) (b' : BCBP) (c' : Chunk),
    parseLegsFrom i n b c = .ok (b', c') → b'.legs.length = b.legs.length + n := by
  induction n with
  | zero =>
    intro i b c b' c' h
    unfold parseLegsFrom at h
    cases h
    rfl
  | succ n ih =>
    intro i b c b' c' h
    unfold parseLegsFrom at h
    cases hl : parseLeg i b c with
    | error e => rw [hl] at h; cases h
    | ok p =>
      obtain ⟨b1, c1⟩ := p
      rw [hl] at h
      dsimp only at h
      have h2 := ih (i + 1) b1 c1 b' c' h
      have h3 := parseLeg_length i b c b1 c1 hl
      omega

theorem parseSecurity_legs (b : BCBP) (c : Chunk) (b' : BCBP) (c' : Chunk)
    (h : parseSecurity b c = .ok (b', c')) : b'.legs = b.legs := by
  unfold parseSecurity at h
  repeat' split at h
  all_goals cases h
  all_goals rfl



theorem digitValIn10 (c : Char) :
    digitValIn 10 c = if 48 ≤ c.toNat ∧ c.toNat ≤ 57 then some (c.toNat - 48) else none := by
  unfold digitValIn
  simp only []
  by_cases hd : 48 ≤ c.toNat ∧ c.toNat ≤ 57
  · rw [if_pos hd, if_pos hd, if_pos (by omega)]
  · rw [if_neg hd, if_neg hd]
    by_cases h3 : 97 ≤ c.toNat ∧ c.toNat ≤ 122
    · rw [if_pos h3, if_neg (by omega)]
    · rw [if_neg h3]
      by_cases h4 : 65 ≤ c.toNat ∧ c.toNat ≤ 90
      · rw [if_pos h4, if_neg (by omega)]
      · rw [if_neg h4, if_neg (by omega)]

theorem rustSingleDigit (c : Char) :
    rustFromStrRadix 10 usizeMax [c] =
      if 48 ≤ c.toNat ∧ c.toNat ≤ 57 then some (c.toNat - 48) else none := by
  by_cases h1 : c = '+'
  · subst h1; decide
  unfold rustFromStrRadix
  simp only []
  rw [if_neg h1]
  have hne : ([c].isEmpty) = false := rfl
  rw [if_neg (by simp)]
  dsimp [List.foldl]
  rw [digitValIn10]
  by_cases hd : 48 ≤ c.toNat ∧ c.toNat ≤ 57
  · rw [if_pos hd]
    dsimp only
    rw [if_pos (by unfold usizeMax; omega)]
    simp
  · rw [if_neg hd]



theorem fetch_usize_cons (f : Field) (radix : Nat) (d : Char) (rest : List Char) (n : Nat)
    (h1 : f.len = 1) (hp : rustFromStrRadix radix usizeMax [d] = some n) :
    Chunk.fetch_usize ⟨d :: rest⟩ f radix = .ok (n, ⟨rest⟩) :=
  fetch_usize_exact f radix [d] rest n (by simp [h1]) (by omega) hp

theorem fetch_usize_cons_bad (f : Field) (radix : Nat) (d : Char) (rest : List Char)
    (h1 : f.len = 1) (hp : rustFromStrRadix radix usizeMax [d] = none) :
    Chunk.fetch_usize ⟨d :: rest⟩ f radix = .error (.e (.ExpectedInteger f)) :=
  fetch_usize_bad f radix [d] rest (by simp [h1]) (by omega) hp

/-- C3 (amended): every successful decode returns as many legs as the decimal
digit at offset 1 of the input; and for ASCII inputs of at least 60 characters
whose first character is the format code M, a leg-count digit 0 fails with
InvalidLegsCount and a non-digit leg-count character fails with
ExpectedInteger for the leg-count field.  (The format-code condition is
needed: without it the parse fails earlier with InvalidFormatCode.) -/
theorem c3_leg_count (s : List Char) :
    (∀ b, BCBP.fromInput s = .ok b → legCountDigit s = some b.legs.length) ∧
    (s.all charIsAscii = true → 60 ≤ s.length → s[0]? = some 'M' →
      ((s[1]? = some '0' → BCBP.fromInput s = .error (.e .InvalidLegsCount)) ∧
       (∀ c, s[1]? = some c → ¬(48 ≤ c.toNat ∧ c.toNat ≤ 57) →
         BCBP.fromInput s = .error (.e (.ExpectedInteger .NumberOfLegsEncoded))))) := by
  constructor
  · intro b h
    unfold BCBP.fromInput at h
    cases hc : BCBP.fromCore s with
    | error e => rw [hc] at h; cases h
    | ok p =>
      obtain ⟨b0, c0⟩ := p
      rw [hc] at h
      dsimp only at h
      split at h
      · cases h
      · cases h
        unfold BCBP.fromCore at hc
        split at hc
        · cases hc
        · split at hc
          · cases hc
          · simp only [] at hc
            cases hfc : Chunk.fetch_char ⟨s⟩ .FormatCode with
            | error e => rw [hfc] at hc; cases hc
            | ok p1 =>
              obtain ⟨code, c1⟩ := p1
              rw [hfc] at hc
              dsimp only at hc
              split at hc
              · cases hc
              · rename_i hcode
                cases hfu : c1.fetch_usize .NumberOfLegsEncoded 10 with
                | error e => rw [hfu] at hc; cases hc
                | ok p2 =>
                  obtain ⟨legs, c2⟩ := p2
                  rw [hfu] at hc
                  dsimp only at hc
                  split at hc
                  · cases hc
                  · rename_i hbound
                    cases hfn : c2.fetch_str .PassengerName with
                    | error e => rw [hfn] at hc; cases hc
                    | ok p3 =>
                      obtain ⟨nameF, c3⟩ := p3
                      rw [hfn] at hc
                      dsimp only at hc
                      cases hft : c3.fetch_char .ElectronicTicketIndicator with
                      | error e => rw [hft] at hc; cases hc
                      | ok p4 =>
                        obtain ⟨tf, c4⟩ := p4
                        rw [hft] at hc
                        dsimp only at hc
                        cases hpl : parseLegsFrom 0 legs
                            { name_last := (bcbp_name nameF).1,
                              name_first := rustTrim ((bcbp_name nameF).2.getD []),
                              ticket_flag := tf } c4 with
                        | error e => rw [hpl] at hc; cases hc
                        | ok p5 =>
                          obtain ⟨b5, c5⟩ := p5
                          rw [hpl] at hc
                          dsimp only at hc
                          have hshape := fetch_char_inv .FormatCode ⟨s⟩ code c1 (by decide) hfc
                          obtain ⟨d, hd1, hd2⟩ :=
                            fetch_usize_inv1 .NumberOfLegsEncoded 10 c1 legs c2 (by decide) hfu
                          rw [rustSingleDigit] at hd2
                          by_cases hdig : 48 ≤ d.toNat ∧ d.toNat ≤ 57
                          · rw [if_pos hdig] at hd2
                            have hlegs : legs = d.toNat - 48 := (Option.some.inj hd2).symm
                            have hslist : s = code :: d :: c2.input := by
                              have h9 : (⟨s⟩ : Chunk).input = code :: c1.input := hshape
                              simp only at h9
                              rw [h9, hd1]
                            have hcount : legCountDigit s = some (d.toNat - 48) := by
                              rw [hslist]
                              unfold legCountDigit
                              simp [hdig]
                            have hlen5 := parseLegsFrom_length legs 0 _ c4 b5 c5 hpl
                            have hlen0 := parseSecurity_legs b5 c5 b c0 hc
                            have hb : b.legs.length = legs := by
                              rw [hlen0, hlen5]
                              simp
                            rw [hcount, hb, hlegs]
                          · rw [if_neg hdig] at hd2
                            cases hd2
  · intro hascii hlen hM
    cases s with
    | nil => simp at hM
    | cons a t =>
      have ha : a = 'M' := by simpa using hM
      subst ha
      cases t with
      | nil => simp at hlen
      | cons d rest =>
        have hlen' : 60 ≤ rest.length + 2 := by simpa using hlen
        constructor
        · intro hd1
          have hd : d = '0' := by simpa using hd1
          subst hd
          unfold BCBP.fromInput BCBP.fromCore
          rw [if_neg (by simp [hascii]), if_neg (by simp only [List.length_cons]; omega)]
          simp only []
          rw [fetch_char_cons .FormatCode 'M' ('0' :: rest) (by decide)]
          dsimp only
          rw [if_neg (by simp)]
          rw [fetch_usize_cons .NumberOfLegsEncoded 10 '0' rest 0 (by decide) (by decide)]
          dsimp only
          rw [if_pos (by omega)]
        · intro c hc1 hnd
          have hd : d = c := by simpa using hc1
          subst hd
          unfold BCBP.fromInput BCBP.fromCore
          rw [if_neg (by simp [hascii]), if_neg (by simp only [List.length_cons]; omega)]
          simp only []
          rw [fetch_char_cons .FormatCode 'M' (d :: rest) (by decide)]
          dsimp only
          rw [if_neg (by simp)]
          rw [fetch_usize_cons_bad .NumberOfLegsEncoded 10 d rest (by decide)
            (by rw [rustSingleDigit, if_neg hnd])]

/-! Claim theorems. -/

/-- C4: decoding the concrete scenario string yields exactly the record with
name JOHN/SMITH JORDAN, last name JOHN, first name SMITH JORDAN, one leg with
pnr ABCDEF, JFK to SVO, airline SU, flight 1234A, day 1, compartment Y, seat
1Z, sequence 7, status 0, and re-encoding reproduces the input exactly (the
string is 60 characters long, not the 61 stated by the spec). -/
theorem c4_concrete_scenario :
    BCBP.fromInput sampleInput.toList = .ok sampleRecord ∧
    BCBP.name sampleRecord = "JOHN/SMITH JORDAN".toList ∧
    BCBP.name_lastA sampleRecord = "JOHN".toList ∧
    BCBP.name_firstA sampleRecord = "SMITH JORDAN".toList ∧
    sampleRecord.legs.length = 1 ∧
    BCBP.build sampleRecord = sampleInput.toList ∧
    sampleInput.toList.length = 60 := by
  refine ⟨?_, ?_, ?_, ?_, ?_, ?_, ?_⟩ <;> decide

/-- C5: any input with a non-ASCII character is rejected as InvalidCharacters
regardless of its content, and any pure-ASCII input shorter than 60 characters
is rejected as MandatoryDataSize. -/
theorem c5_upfront_validation (s : List Char) :
    (¬ s.all charIsAscii = true → BCBP.fromInput s = .error (.e .InvalidCharacters)) ∧
    (s.all charIsAscii = true → s.length < 60 →
      BCBP.fromInput s = .error (.e .MandatoryDataSize)) := by
  constructor
  · intro h
    simp [BCBP.fromInput, BCBP.fromCore, h]
  · intro h1 h2
    simp [BCBP.fromInput, BCBP.fromCore, h1, h2]

/-- Witness for C5: a one-character non-ASCII input is InvalidCharacters and
the empty input is MandatoryDataSize. -/
theorem c5_upfront_validation_witness :
    BCBP.fromInput ['Ā'] = .error (.e .InvalidCharacters) ∧
    BCBP.fromInput [] = .error (.e .MandatoryDataSize) :=
  ⟨(c5_upfront_validation ['Ā']).1 (by decide),
   (c5_upfront_validation []).2 (by decide) (by decide)⟩

/-- C2 (amended): every successful decode consumes the entire input, since
the only success exit of BCBP::from requires the cursor to be at end of
input.  The second half of the original claim is refuted separately: an
appended byte may instead start a security section. -/
theorem c2_exact_consumption (s : List Char) (b : BCBP)
    (h : BCBP.fromInput s = .ok b) :
    BCBP.fromCore s = .ok (b, ⟨[]⟩) := by
  unfold BCBP.fromInput at h
  cases hc : BCBP.fromCore s with
  | error e => rw [hc] at h; exact absurd h (by simp)
  | ok p =>
    obtain ⟨b', c⟩ := p
    rw [hc] at h
    dsimp only at h
    by_cases he : c.eof
    · have hb : b' = b := by
        rw [if_neg (by simpa using he)] at h
        exact Except.ok.inj h
      have hin : c.input = [] := by
        have h2 := he
        unfold Chunk.eof at h2
        simpa [List.isEmpty_iff] using h2
      cases c
      simp only at hin
      rw [hb, hin]
    · rw [if_pos (by simpa using he)] at h
      exact absurd h (by simp)

/-- Witness for C2: the sample input decodes with an empty final cursor. -/
theorem c2_exact_consumption_witness :
    BCBP.fromCore sampleInput.toList = .ok (sampleRecord, ⟨[]⟩) :=
  c2_exact_consumption sampleInput.toList sampleRecord (by decide)

/-- Counterexample for C2 as stated: appending the single byte to a valid
input does not generally yield TrailingData; appending a caret to the valid
sample input yields a successful parse with an empty security section, and
appending the letter X yields InvalidPrefix rather than TrailingData. -/
theorem c2_counterexample :
    (BCBP.fromInput sampleInput.toList).isOk = true ∧
    (BCBP.fromInput (sampleInput.toList ++ ['^'])).isOk = true ∧
    BCBP.fromInput (sampleInput.toList ++ ['^']) ≠ .error (.e .TrailingData) ∧
    BCBP.fromInput (sampleInput.toList ++ ['X']) =
      .error (.e (.InvalidPrefix .BeginningOfSecurityData 'X')) := by
  refine ⟨?_, ?_, ?_, ?_⟩ <;> decide

/-- C6: after the ten mandatory fields of a leg the parser reads the
2-hex-digit conditional block size; a value exceeding the remaining input
fails with CoditionalDataSize, and a zero value consumes no conditional data,
returning directly with the cursor right after the size field. -/
theorem c6_conditional_sizing (i : Nat) (b : BCBP) (c : Chunk) (leg : Leg)
    (c1 : Chunk) (v : Nat) (c2 : Chunk)
    (hm : parseLegMandatory c = .ok (leg, c1))
    (hs : c1.fetch_usize .FieldSizeOfVariableSizeField 16 = .ok (v, c2)) :
    (v > c2.len → parseLeg i b c = .error (.e .CoditionalDataSize)) ∧
    (v = 0 → parseLeg i b c = .ok ({ b with legs := b.legs ++ [leg] }, c2)) := by
  constructor
  · intro hgt
    unfold parseLeg
    rw [hm]
    dsimp only
    rw [hs]
    dsimp only
    simp [hgt]
  · intro hz
    subst hz
    unfold parseLeg
    rw [hm]
    dsimp only
    rw [hs]
    dsimp only
    simp

/-- Witness for C6: a leg of thirty-five blanks followed by the size FF with
nothing after it fails with CoditionalDataSize, and followed by 00 it
succeeds, pushing the blank leg. -/
theorem c6_conditional_sizing_witness :
    parseLeg 0 {} ⟨List.replicate 35 ' ' ++ ['F', 'F']⟩ = .error (.e .CoditionalDataSize) ∧
    parseLeg 0 {} ⟨List.replicate 35 ' ' ++ ['0', '0']⟩ =
      .ok ({ legs := [blankLeg] }, ⟨[]⟩) := by
  constructor
  · exact (c6_conditional_sizing 0 {} ⟨List.replicate 35 ' ' ++ ['F', 'F']⟩ blankLeg
      ⟨['F', 'F']⟩ 255 ⟨[]⟩ (by decide) (by decide)).1 (by decide)
  · have h := (c6_conditional_sizing 0 {} ⟨List.replicate 35 ' ' ++ ['0', '0']⟩ blankLeg
      ⟨['0', '0']⟩ 0 ⟨[]⟩ (by decide) (by decide)).2 rfl
    simpa using h

/-- C7 (amended): for fields satisfying the documented length preconditions
(nonzero intrinsic length for fetch_str_opt, length exactly one for
fetch_char_opt) the optional reads return none exactly at end of input and
otherwise behave as the required reads wrapped in some. -/
theorem c7_optional_reads (c : Chunk) (f : Field) :
    (f.len ≠ 0 →
      ((c.fetch_str_opt f = .ok (none, c) ↔ c.eof = true) ∧
       (c.eof = false →
         c.fetch_str_opt f = Except.map (fun p => (some p.1, p.2)) (c.fetch_str f)))) ∧
    (f.len = 1 →
      ((c.fetch_char_opt f = .ok (none, c) ↔ c.eof = true) ∧
       (c.eof = false →
         c.fetch_char_opt f = Except.map (fun p => (some p.1, p.2)) (c.fetch_char f)))) := by
  constructor
  · intro h0
    by_cases he : c.eof
    · constructor
      · simp [Chunk.fetch_str_opt, h0, he]
      · intro hne; rw [he] at hne; cases hne
    · have he' : c.eof = false := by simpa using he
      constructor
      · rw [iff_false_intro (by simp [he'] : ¬ c.eof = true)]
        simp only [Chunk.fetch_str_opt, if_neg h0, he']
        cases hfs : c.fetch_str f with
        | error e => simp
        | ok p => simp
      · intro _
        simp only [Chunk.fetch_str_opt, if_neg h0, he']
        cases hfs : c.fetch_str f with
        | error e => simp [Except.map]
        | ok p => simp [Except.map]
  · intro h1
    by_cases he : c.eof
    · constructor
      · simp [Chunk.fetch_char_opt, h1, he]
      · intro hne; rw [he] at hne; cases hne
    · have he' : c.eof = false := by simpa using he
      constructor
      · rw [iff_false_intro (by simp [he'] : ¬ c.eof = true)]
        simp only [Chunk.fetch_char_opt, h1, he']
        cases hfc : c.fetch_char f with
        | error e => simp
        | ok p => simp
      · intro _
        simp only [Chunk.fetch_char_opt, h1, he']
        cases hfc : c.fetch_char f with
        | error e => simp [Except.map]
        | ok p => simp [Except.map]

/-- Witness for C7: an empty cursor reads an optional passenger name as none,
and a one-character cursor reads an optional fast-track flag as that
character. -/
theorem c7_optional_reads_witness :
    Chunk.fetch_str_opt ⟨[]⟩ .PassengerName = .ok (none, ⟨[]⟩) ∧
    Chunk.fetch_char_opt ⟨['A']⟩ .FastTrack =
      Except.map (fun p => (some p.1, p.2)) (Chunk.fetch_char ⟨['A']⟩ .FastTrack) := by
  constructor
  · exact ((c7_optional_reads ⟨[]⟩ .PassengerName).1 (by decide)).1.mpr (by decide)
  · exact ((c7_optional_reads ⟨['A']⟩ .FastTrack).2 (by decide)).2 (by decide)

/-- Counterexample for C7 as stated: fetch_char_opt applied to a fixed-length
field whose catalog length is two (LengthOfSecurityData) panics on its length
assertion before the end-of-input test, so at end of input it does not return
the claimed ok-none. -/
theorem c7_counterexample :
    Chunk.eof ⟨[]⟩ = true ∧
    Chunk.fetch_char_opt ⟨[]⟩ .LengthOfSecurityData = .error .panic ∧
    Chunk.fetch_char_opt ⟨[]⟩ .LengthOfSecurityData ≠ .ok (none, ⟨[]⟩) := by
  refine ⟨?_, ?_, ?_⟩ <;> decide

/-- C8: the mandatory leg parse never fails because of the content of its
numeric fields — the flight day is the trimmed, zero-stripped decimal value
with fallback 0, an unparsable sequence (all spaces, or a minus sign, which
the unsigned parse rejects) gives none — whereas fetch_usize on a
declared-size field whose content does not parse in its radix (including a
minus-zero content) fails hard with ExpectedInteger. -/
theorem c8_numeric_leniency (p s3 d3 a3 f5 day : List Char) (comp : Char)
    (seat4 seq5 : List Char) (st : Char) (rest : List Char)
    (hp : p.length = 7) (hs : s3.length = 3) (hd : d3.length = 3) (ha : a3.length = 3)
    (hf : f5.length = 5) (hday : day.length = 3) (hseat : seat4.length = 4)
    (hseq : seq5.length = 5) :
    (parseLegMandatory
        ⟨p ++ (s3 ++ (d3 ++ (a3 ++ (f5 ++ (day ++ comp :: (seat4 ++ (seq5 ++ st :: rest)))))))⟩ =
      .ok ({ pnr := rustTrim p, src_airport := rustTrim s3, dst_airport := rustTrim d3,
             airline := rustTrim a3, flight_number := rustTrim f5,
             flight_day := u16_from_str_force day 10, compartment := comp,
             seat := seat_opt (rustTrim seat4), sequence := u32_from_str_opt seq5 10,
             pax_status := st }, ⟨rest⟩)) ∧
    (∀ g : List Char, u16_from_str_force g 10 =
      (rustFromStrRadix 10 65535 (dropLeading0 (rustTrim g))).getD 0) ∧
    u32_from_str_opt (List.replicate 5 ' ') 10 = none ∧
    u32_from_str_opt "  -0 ".toList 10 = none ∧
    (∀ (g tail : List Char) (f : Field), g.length = f.len → f.len ≠ 0 →
      rustFromStrRadix 16 usizeMax g = none →
      Chunk.fetch_usize ⟨g ++ tail⟩ f 16 = .error (.e (.ExpectedInteger f))) := by
  refine ⟨parseLegMandatory_spec p s3 d3 a3 f5 day comp seat4 seq5 st rest
      hp hs hd ha hf hday hseat hseq,
    fun g => rfl, by decide, by decide,
    fun g tail f h1 h2 h3 => fetch_usize_bad f 16 g tail h1 h2 h3⟩

/-- Witness for C8: a leg whose date field is the garbage XYZ parses with
flight day 0, an all-space sequence field parses as none, a sequence field
trimming to minus zero parses as none (the unsigned parse rejects a minus
sign), and the size contents ZZ and minus zero fail with ExpectedInteger in
radix 16. -/
theorem c8_numeric_leniency_witness :
    parseLegMandatory ⟨"ABCDEF JFKSVOSU 1234AXYZY001Z     0".toList⟩ =
      .ok ({ pnr := "ABCDEF".toList, src_airport := "JFK".toList,
             dst_airport := "SVO".toList, airline := "SU".toList,
             flight_number := "1234A".toList, flight_day := 0,
             compartment := 'Y', seat := some "1Z".toList, sequence := none,
             pax_status := '0' }, ⟨[]⟩) ∧
    u16_from_str_force "XYZ".toList 10 = 0 ∧
    u32_from_str_opt (List.replicate 5 ' ') 10 = none ∧
    u32_from_str_opt "  -0 ".toList 10 = none ∧
    Chunk.fetch_usize ⟨"ZZ".toList⟩ .LengthOfSecurityData 16 =
      .error (.e (.ExpectedInteger .LengthOfSecurityData)) ∧
    Chunk.fetch_usize ⟨"-0".toList⟩ .LengthOfSecurityData 16 =
      .error (.e (.ExpectedInteger .LengthOfSecurityData)) := by
  have h := c8_numeric_leniency "ABCDEF ".toList "JFK".toList "SVO".toList "SU ".toList
    "1234A".toList "XYZ".toList 'Y' "001Z".toList "     ".toList '0' []
    (by decide) (by decide) (by decide) (by decide) (by decide) (by decide) (by decide) (by decide)
  exact ⟨h.1, h.2.1 "XYZ".toList, h.2.2.1, h.2.2.2.1,
    h.2.2.2.2 "ZZ".toList [] .LengthOfSecurityData (by decide) (by decide) (by decide),
    h.2.2.2.2 "-0".toList [] .LengthOfSecurityData (by decide) (by decide) (by decide)⟩

/-- C10: for a successfully parsed leg, the seat is none exactly when the
4-byte seat field content, trimmed and stripped of leading zeros, has length
at most one; otherwise it is some of that stripped string. -/
theorem c10_seat_normalization (p s3 d3 a3 f5 day : List Char) (comp : Char)
    (seat4 seq5 : List Char) (st : Char) (rest : List Char)
    (hp : p.length = 7) (hs : s3.length = 3) (hd : d3.length = 3) (ha : a3.length = 3)
    (hf : f5.length = 5) (hday : day.length = 3) (hseat : seat4.length = 4)
    (hseq : seq5.length = 5) (leg : Leg) (c' : Chunk)
    (h : parseLegMandatory
        ⟨p ++ (s3 ++ (d3 ++ (a3 ++ (f5 ++ (day ++ comp :: (seat4 ++ (seq5 ++ st :: rest)))))))⟩ =
      .ok (leg, c')) :
    (leg.seat = none ↔ (dropLeading0 (rustTrim seat4)).length ≤ 1) ∧
    (1 < (dropLeading0 (rustTrim seat4)).length →
      leg.seat = some (dropLeading0 (rustTrim seat4))) := by
  rw [parseLegMandatory_spec p s3 d3 a3 f5 day comp seat4 seq5 st rest
    hp hs hd ha hf hday hseat hseq] at h
  have hleg := (Prod.mk.injEq _ _ _ _).mp (Except.ok.inj h)
  have hseatv : leg.seat = seat_opt (rustTrim seat4) := by
    rw [← hleg.1]
  have hso : seat_opt (rustTrim seat4) =
      if (dropLeading0 (rustTrim seat4)).length ≤ 1 then none
      else some (dropLeading0 (rustTrim seat4)) := by
    unfold seat_opt
    rw [rustTrim_idem]
  rw [hseatv, hso]
  by_cases hl : (dropLeading0 (rustTrim seat4)).length ≤ 1
  · rw [if_pos hl]
    exact ⟨by simp [hl], fun hgt => absurd hl (by omega)⟩
  · rw [if_neg hl]
    exact ⟨by simp [hl], fun _ => rfl⟩

/-- Witness for C3: the sample input has leg digit 1 and one leg; replacing
the digit by 0 yields InvalidLegsCount and by A yields ExpectedInteger. -/
theorem c3_leg_count_witness :
    legCountDigit sampleInput.toList = some 1 ∧
    BCBP.fromInput c3ZeroInput.toList = .error (.e .InvalidLegsCount) ∧
    BCBP.fromInput c3LetterInput.toList =
      .error (.e (.ExpectedInteger .NumberOfLegsEncoded)) := by
  refine ⟨?_, ?_, ?_⟩
  · exact (c3_leg_count sampleInput.toList).1 sampleRecord (by decide)
  · exact ((c3_leg_count c3ZeroInput.toList).2 (by decide) (by decide) (by decide)).1 (by decide)
  · exact ((c3_leg_count c3LetterInput.toList).2 (by decide) (by decide) (by decide)).2
      'A' (by decide) (by decide)

/-- Counterexample for C3 as stated: an ASCII input of 60 characters with
leg-count digit 0 but format code X fails with InvalidFormatCode, not
InvalidLegsCount, because the format code is checked first. -/
theorem c3_counterexample :
    c3FmtInput.toList.all charIsAscii = true ∧
    60 ≤ c3FmtInput.toList.length ∧
    c3FmtInput.toList[1]? = some '0' ∧
    BCBP.fromInput c3FmtInput.toList = .error (.e (.InvalidFormatCode 'X')) ∧
    BCBP.fromInput c3FmtInput.toList ≠ .error (.e .InvalidLegsCount) := by
  refine ⟨?_, ?_, ?_, ?_, ?_⟩ <;> decide

/-- Witness for C10: a seat field 000A strips to the single character A and
is reported as absent. -/
theorem c10_seat_normalization_witness : c10SeatLeg.seat = none :=
  ((c10_seat_normalization "ABCDEF ".toList "JFK".toList "SVO".toList "SU ".toList
      "1234A".toList "001".toList 'Y' "000A".toList "0007 ".toList '0' []
      (by decide) (by decide) (by decide) (by decide) (by decide) (by decide)
      (by decide) (by decide) c10SeatLeg ⟨[]⟩ (by decide)).1).mpr (by decide)

theorem fetch_chunk_np (c : Chunk) (n : Nat) (hn : n ≠ 0) :
    c.fetch_chunk n ≠ .error .panic := by
  unfold Chunk.fetch_chunk
  rw [if_neg hn]
  split <;> simp

theorem fetch_str_len_np (c : Chunk) (f : Field) (n : Nat) (hn : n ≠ 0)
    (hc : f.len = 0 ∨ f.len = n) : c.fetch_str_len f n ≠ .error .panic := by
  unfold Chunk.fetch_str_len
  rw [if_neg hn, if_neg (not_not_intro hc)]
  split <;> simp

theorem fetch_str_np (c : Chunk) (f : Field) (h : f.len ≠ 0) :
    c.fetch_str f ≠ .error .panic := by
  unfold Chunk.fetch_str
  rw [if_neg h]
  exact fetch_str_len_np c f f.len h (Or.inr rfl)

theorem fetch_str_opt_np (c : Chunk) (f : Field) (h : f.len ≠ 0) :
    c.fetch_str_opt f ≠ .error .panic := by
  unfold Chunk.fetch_str_opt
  rw [if_neg h]
  by_cases he : c.eof
  · rw [if_pos he]; simp
  · rw [if_neg he]
    cases hfs : c.fetch_str f with
    | error e =>
      dsimp only
      intro hk
      injection hk with hk2
      exact fetch_str_np c f h (hk2 ▸ hfs)
    | ok p => obtain ⟨v, c2⟩ := p; simp

theorem fetch_char_np (c : Chunk) (f : Field) (h : f.len = 1) :
    c.fetch_char f ≠ .error .panic := by
  unfold Chunk.fetch_char
  rw [if_neg (by simp [h])]
  cases hfs : c.fetch_str f with
  | error e =>
    dsimp only
    intro hk
    injection hk with hk2
    exact fetch_str_np c f (by simp [h]) (hk2 ▸ hfs)
  | ok p =>
    obtain ⟨v, c2⟩ := p
    have hlen := (fetch_str_inv f c v c2 hfs).2
    rw [h] at hlen
    match v, hlen with
    | [x], _ => simp

theorem fetch_char_opt_np (c : Chunk) (f : Field) (h : f.len = 1) :
    c.fetch_char_opt f ≠ .error .panic := by
  unfold Chunk.fetch_char_opt
  rw [if_neg (by simp [h])]
  by_cases he : c.eof
  · rw [if_pos he]; simp
  · rw [if_neg he]
    cases hfc : c.fetch_char f with
    | error e =>
      dsimp only
      intro hk
      injection hk with hk2
      exact fetch_char_np c f h (hk2 ▸ hfc)
    | ok p => obtain ⟨ch, c2⟩ := p; simp

theorem fetch_usize_np (c : Chunk) (f : Field) (radix : Nat) (h : f.len ≠ 0) :
    c.fetch_usize f radix ≠ .error .panic := by
  unfold Chunk.fetch_usize
  cases hfs : c.fetch_str f with
  | error e =>
    dsimp only
    intro hk
    injection hk with hk2
    exact fetch_str_np c f h (hk2 ▸ hfs)
  | ok p =>
    obtain ⟨v, c2⟩ := p
    dsimp only
    cases hr : rustFromStrRadix radix usizeMax v <;> simp [hr]



theorem parseUniqueFields_np (b : BCBP) (uc : Chunk) :
    parseUniqueFields b uc ≠ .error .panic := by
  unfold parseUniqueFields
  cases h1 : uc.fetch_char_opt .PassengerDescription with
  | error e =>
    dsimp only; intro hk; injection hk with hk2
    exact fetch_char_opt_np _ _ (by decide) (hk2 ▸ h1)
  | ok p1 =>
  obtain ⟨x1, u1⟩ := p1
  dsimp only
  cases h2 : u1.fetch_char_opt .SourceOfCheckIn with
  | error e =>
    dsimp only; intro hk; injection hk with hk2
    exact fetch_char_opt_np _ _ (by decide) (hk2 ▸ h2)
  | ok p2 =>
  obtain ⟨x2, u2⟩ := p2
  dsimp only
  cases h3 : u2.fetch_char_opt .SourceOfBoardingPassIssuance with
  | error e =>
    dsimp only; intro hk; injection hk with hk2
    exact fetch_char_opt_np _ _ (by decide) (hk2 ▸ h3)
  | ok p3 =>
  obtain ⟨x3, u3⟩ := p3
  dsimp only
  cases h4 : u3.fetch_str_opt .DateOfIssueOfBoardingPass with
  | error e =>
    dsimp only; intro hk; injection hk with hk2
    exact fetch_str_opt_np _ _ (by decide) (hk2 ▸ h4)
  | ok p4 =>
  obtain ⟨x4, u4⟩ := p4
  dsimp only
  cases h5 : u4.fetch_char_opt .DocumentType with
  | error e =>
    dsimp only; intro hk; injection hk with hk2
    exact fetch_char_opt_np _ _ (by decide) (hk2 ▸ h5)
  | ok p5 =>
  obtain ⟨x5, u5⟩ := p5
  dsimp only
  cases h6 : u5.fetch_str_opt .AirlineDesignatorOfBoardingPassIssuer with
  | error e =>
    dsimp only; intro hk; injection hk with hk2
    exact fetch_str_opt_np _ _ (by decide) (hk2 ▸ h6)
  | ok p6 =>
  obtain ⟨x6, u6⟩ := p6
  simp

theorem parseUniqueSection_np (b : BCBP) (ci : Chunk) :
    parseUniqueSection b ci ≠ .error .panic := by
  unfold parseUniqueSection
  cases h1 : ci.fetch_char .BeginningOfVersionNumber with
  | error e =>
    dsimp only; intro hk; injection hk with hk2
    exact fetch_char_np _ _ (by decide) (hk2 ▸ h1)
  | ok p1 =>
  obtain ⟨pfx, c1⟩ := p1
  dsimp only
  by_cases hpfx : pfx ≠ '<' ∧ pfx ≠ '>'
  · rw [if_pos hpfx]; simp
  rw [if_neg hpfx]
  cases h2 : c1.fetch_char .VersionNumber with
  | error e =>
    dsimp only; intro hk; injection hk with hk2
    exact fetch_char_np _ _ (by decide) (hk2 ▸ h2)
  | ok p2 =>
  obtain ⟨ver, c2⟩ := p2
  dsimp only
  by_cases hl : c2.len > 0
  · rw [if_pos hl]
    cases h3 : c2.fetch_usize .FieldSizeOfStructuredMessageUnique 16 with
    | error e =>
      dsimp only; intro hk; injection hk with hk2
      exact fetch_usize_np _ _ _ (by decide) (hk2 ▸ h3)
    | ok p3 =>
    obtain ⟨n, c3⟩ := p3
    dsimp only
    by_cases hn : n > 0
    · rw [if_pos hn]
      cases h4 : c3.fetch_chunk n with
      | error e =>
        dsimp only; intro hk; injection hk with hk2
        exact fetch_chunk_np _ _ (by omega) (hk2 ▸ h4)
      | ok p4 =>
      obtain ⟨uc, c4⟩ := p4
      dsimp only
      cases h5 : parseUniqueFields { b with version := some ver } uc with
      | error e =>
        dsimp only; intro hk; injection hk with hk2
        exact parseUniqueFields_np _ _ (hk2 ▸ h5)
      | ok b5 => simp
    · rw [if_neg hn]; simp
  · rw [if_neg hl]; simp

theorem parseRepeatedFields_np (leg : Leg) (rc : Chunk) :
    parseRepeatedFields leg rc ≠ .error .panic := by
  unfold parseRepeatedFields
  cases h1 : rc.fetch_str_opt .AirlineNumericCode with
  | error e =>
    dsimp only; intro hk; injection hk with hk2
    exact fetch_str_opt_np _ _ (by decide) (hk2 ▸ h1)
  | ok p1 =>
  obtain ⟨x1, u1⟩ := p1
  dsimp only
  cases h2 : u1.fetch_str_opt .DocumentFormSerialNumber with
  | error e =>
    dsimp only; intro hk; injection hk with hk2
    exact fetch_str_opt_np _ _ (by decide) (hk2 ▸ h2)
  | ok p2 =>
  obtain ⟨x2, u2⟩ := p2
  dsimp only
  cases h3 : u2.fetch_char_opt .SelecteeIndicator with
  | error e =>
    dsimp only; intro hk; injection hk with hk2
    exact fetch_char_opt_np _ _ (by decide) (hk2 ▸ h3)
  | ok p3 =>
  obtain ⟨x3, u3⟩ := p3
  dsimp only
  cases h4 : u3.fetch_char_opt .InternationalDocumentVerification with
  | error e =>
    dsimp only; intro hk; injection hk with hk2
    exact fetch_char_opt_np _ _ (by decide) (hk2 ▸ h4)
  | ok p4 =>
  obtain ⟨x4, u4⟩ := p4
  dsimp only
  cases h5 : u4.fetch_str_opt .MarketingCarrierDesignator with
  | error e =>
    dsimp only; intro hk; injection hk with hk2
    exact fetch_str_opt_np _ _ (by decide) (hk2 ▸ h5)
  | ok p5 =>
  obtain ⟨x5, u5⟩ := p5
  dsimp only
  cases h6 : u5.fetch_str_opt .FrequentFlyerAirlineDesignator with
  | error e =>
    dsimp only; intro hk; injection hk with hk2
    exact fetch_str_opt_np _ _ (by decide) (hk2 ▸ h6)
  | ok p6 =>
  obtain ⟨x6, u6⟩ := p6
  dsimp only
  cases h7 : u6.fetch_str_opt .FrequentFlyerNumber with
  | error e =>
    dsimp only; intro hk; injection hk with hk2
    exact fetch_str_opt_np _ _ (by decide) (hk2 ▸ h7)
  | ok p7 =>
  obtain ⟨x7, u7⟩ := p7
  dsimp only
  cases h8 : u7.fetch_char_opt .IdAdIndicator with
  | error e =>
    dsimp only; intro hk; injection hk with hk2
    exact fetch_char_opt_np _ _ (by decide) (hk2 ▸ h8)
  | ok p8 =>
  obtain ⟨x8, u8⟩ := p8
  dsimp only
  cases h9 : u8.fetch_str_opt .FreeBaggageAllowance with
  | error e =>
    dsimp only; intro hk; injection hk with hk2
    exact fetch_str_opt_np _ _ (by decide) (hk2 ▸ h9)
  | ok p9 =>
  obtain ⟨x9, u9⟩ := p9
  dsimp only
  cases h10 : u9.fetch_char_opt .FastTrack with
  | error e =>
    dsimp only; intro hk; injection hk with hk2
    exact fetch_char_opt_np _ _ (by decide) (hk2 ▸ h10)
  | ok p10 =>
  obtain ⟨x10, u10⟩ := p10
  simp

theorem parseRepeatedSection_np (leg : Leg) (ci : Chunk) :
    parseRepeatedSection leg ci ≠ .error .panic := by
  unfold parseRepeatedSection
  by_cases hl : ci.len > 0
  · rw [if_pos hl]
    cases h1 : ci.fetch_usize .FieldSizeOfStructuredMessageRepeated 16 with
    | error e =>
      dsimp only; intro hk; injection hk with hk2
      exact fetch_usize_np _ _ _ (by decide) (hk2 ▸ h1)
    | ok p1 =>
    obtain ⟨n, c1⟩ := p1
    dsimp only
    by_cases hn : n > 0
    · rw [if_pos hn]
      cases h2 : c1.fetch_chunk n with
      | error e =>
        dsimp only; intro hk; injection hk with hk2
        exact fetch_chunk_np _ _ (by omega) (hk2 ▸ h2)
      | ok p2 =>
      obtain ⟨rc, c2⟩ := p2
      dsimp only
      cases h3 : parseRepeatedFields leg rc with
      | error e =>
        dsimp only; intro hk; injection hk with hk2
        exact parseRepeatedFields_np _ _ (hk2 ▸ h3)
      | ok leg3 => simp
    · rw [if_neg hn]; simp
  · rw [if_neg hl]; simp

theorem parseVarSection_np (leg : Leg) (ci : Chunk) :
    parseVarSection leg ci ≠ .error .panic := by
  unfold parseVarSection
  by_cases hl : ci.len > 0
  · rw [if_pos hl]
    cases h1 : ci.fetch_str_len .AirlineIndividualUse ci.len with
    | error e =>
      dsimp only; intro hk; injection hk with hk2
      exact fetch_str_len_np _ _ _ (by omega) (Or.inl (by decide)) (hk2 ▸ h1)
    | ok p1 =>
    obtain ⟨body, c1⟩ := p1
    simp
  · rw [if_neg hl]; simp



theorem parseLegMandatory_np (c : Chunk) : parseLegMandatory c ≠ .error .panic := by
  unfold parseLegMandatory
  cases h1 : c.fetch_str .OperatingCarrierPnrCode with
  | error e =>
    dsimp only; intro hk; injection hk with hk2
    exact fetch_str_np _ _ (by decide) (hk2 ▸ h1)
  | ok p1 =>
  obtain ⟨x1, u1⟩ := p1
  dsimp only
  cases h2 : u1.fetch_str .FromCityAirportCode with
  | error e =>
    dsimp only; intro hk; injection hk with hk2
    exact fetch_str_np _ _ (by decide) (hk2 ▸ h2)
  | ok p2 =>
  obtain ⟨x2, u2⟩ := p2
  dsimp only
  cases h3 : u2.fetch_str .ToCityAirportCode with
  | error e =>
    dsimp only; intro hk; injection hk with hk2
    exact fetch_str_np _ _ (by decide) (hk2 ▸ h3)
  | ok p3 =>
  obtain ⟨x3, u3⟩ := p3
  dsimp only
  cases h4 : u3.fetch_str .OperatingCarrierDesignator with
  | error e =>
    dsimp only; intro hk; injection hk with hk2
    exact fetch_str_np _ _ (by decide) (hk2 ▸ h4)
  | ok p4 =>
  obtain ⟨x4, u4⟩ := p4
  dsimp only
  cases h5 : u4.fetch_str .FlightNumber with
  | error e =>
    dsimp only; intro hk; injection hk with hk2
    exact fetch_str_np _ _ (by decide) (hk2 ▸ h5)
  | ok p5 =>
  obtain ⟨x5, u5⟩ := p5
  dsimp only
  cases h6 : u5.fetch_str .DateOfFlight with
  | error e =>
    dsimp only; intro hk; injection hk with hk2
    exact fetch_str_np _ _ (by decide) (hk2 ▸ h6)
  | ok p6 =>
  obtain ⟨x6, u6⟩ := p6
  dsimp only
  cases h7 : u6.fetch_char .CompartmentCode with
  | error e =>
    dsimp only; intro hk; injection hk with hk2
    exact fetch_char_np _ _ (by decide) (hk2 ▸ h7)
  | ok p7 =>
  obtain ⟨x7, u7⟩ := p7
  dsimp only
  cases h8 : u7.fetch_str .SeatNumber with
  | error e =>
    dsimp only; intro hk; injection hk with hk2
    exact fetch_str_np _ _ (by decide) (hk2 ▸ h8)
  | ok p8 =>
  obtain ⟨x8, u8⟩ := p8
  dsimp only
  cases h9 : u8.fetch_str .CheckInSequenceNumber with
  | error e =>
    dsimp only; intro hk; injection hk with hk2
    exact fetch_str_np _ _ (by decide) (hk2 ▸ h9)
  | ok p9 =>
  obtain ⟨x9, u9⟩ := p9
  dsimp only
  cases h10 : u9.fetch_char .PassengerStatus with
  | error e =>
    dsimp only; intro hk; injection hk with hk2
    exact fetch_char_np _ _ (by decide) (hk2 ▸ h10)
  | ok p10 =>
  obtain ⟨x10, u10⟩ := p10
  simp

theorem parseLegUniqueStep_np (i : Nat) (b : BCBP) (ci : Chunk) :
    parseLegUniqueStep i b ci ≠ .error .panic := by
  unfold parseLegUniqueStep
  split
  · exact parseUniqueSection_np b ci
  · simp

theorem parseLeg_np (i : Nat) (b : BCBP) (c : Chunk) : parseLeg i b c ≠ .error .panic := by
  unfold parseLeg
  cases h1 : parseLegMandatory c with
  | error e =>
    dsimp only; intro hk; injection hk with hk2
    exact parseLegMandatory_np _ (hk2 ▸ h1)
  | ok p1 =>
  obtain ⟨leg, c1⟩ := p1
  dsimp only
  cases h2 : c1.fetch_usize .FieldSizeOfVariableSizeField 16 with
  | error e =>
    dsimp only; intro hk; injection hk with hk2
    exact fetch_usize_np _ _ _ (by decide) (hk2 ▸ h2)
  | ok p2 =>
  obtain ⟨csize, c2⟩ := p2
  dsimp only
  by_cases hgt : csize > c2.len
  · rw [if_pos hgt]; simp
  rw [if_neg hgt]
  by_cases hpos : csize > 0
  · rw [if_pos hpos]
    cases h3 : c2.fetch_chunk csize with
    | error e =>
      dsimp only; intro hk; injection hk with hk2
      exact fetch_chunk_np _ _ (by omega) (hk2 ▸ h3)
    | ok p3 =>
    obtain ⟨ci, c3⟩ := p3
    dsimp only
    cases h4 : parseLegUniqueStep i b ci with
    | error e =>
      dsimp only; intro hk; injection hk with hk2
      exact parseLegUniqueStep_np _ _ _ (hk2 ▸ h4)
    | ok p4 =>
    obtain ⟨b4, ci4⟩ := p4
    dsimp only
    cases h5 : parseRepeatedSection leg ci4 with
    | error e =>
      dsimp only; intro hk; injection hk with hk2
      exact parseRepeatedSection_np _ _ (hk2 ▸ h5)
    | ok p5 =>
    obtain ⟨leg5, ci5⟩ := p5
    dsimp only
    cases h6 : parseVarSection leg5 ci5 with
    | error e =>
      dsimp only; intro hk; injection hk with hk2
      exact parseVarSection_np _ _ (hk2 ▸ h6)
    | ok leg6 => simp
  · rw [if_neg hpos]; simp

theorem parseLegsFrom_np (n : Nat) : ∀ (i : Nat) (b : BCBP) (c : Chunk),
    parseLegsFrom i n b c ≠ .error .panic := by
  induction n with
  | zero => intro i b c; unfold parseLegsFrom; simp
  | succ n ih =>
    intro i b c
    unfold parseLegsFrom
    cases h1 : parseLeg i b c with
    | error e =>
      dsimp only; intro hk; injection hk with hk2
      exact parseLeg_np _ _ _ (hk2 ▸ h1)
    | ok p1 =>
      obtain ⟨b1, c1⟩ := p1
      dsimp only
      exact ih (i + 1) b1 c1

theorem parseSecurity_np (b : BCBP) (c : Chunk) : parseSecurity b c ≠ .error .panic := by
  unfold parseSecurity
  by_cases hl : c.len > 0
  · rw [if_pos hl]
    cases h1 : c.fetch_char .BeginningOfSecurityData with
    | error e =>
      dsimp only; intro hk; injection hk with hk2
      exact fetch_char_np _ _ (by decide) (hk2 ▸ h1)
    | ok p1 =>
    obtain ⟨pfx, c1⟩ := p1
    dsimp only
    by_cases hpfx : pfx ≠ '^'
    · rw [if_pos hpfx]; simp
    rw [if_neg hpfx]
    cases h2 : c1.fetch_char_opt .TypeOfSecurityData with
    | error e =>
      dsimp only; intro hk; injection hk with hk2
      exact fetch_char_opt_np _ _ (by decide) (hk2 ▸ h2)
    | ok p2 =>
    obtain ⟨ty, c2⟩ := p2
    dsimp only
    by_cases hl2 : c2.len > 0
    · rw [if_pos hl2]
      cases h3 : c2.fetch_usize .LengthOfSecurityData 16 with
      | error e =>
        dsimp only; intro hk; injection hk with hk2
        exact fetch_usize_np _ _ _ (by decide) (hk2 ▸ h3)
      | ok p3 =>
      obtain ⟨n, c3⟩ := p3
      dsimp only
      by_cases hn : n > 0
      · rw [if_pos hn]
        cases h4 : c3.fetch_str_len .SecurityData n with
        | error e =>
          dsimp only; intro hk; injection hk with hk2
          exact fetch_str_len_np _ _ _ (by omega) (Or.inl (by decide)) (hk2 ▸ h4)
        | ok p4 =>
        obtain ⟨body, c4⟩ := p4
        simp
      · rw [if_neg hn]; simp
    · rw [if_neg hl2]; simp
  · rw [if_neg hl]; simp

theorem fromCore_np (s : List Char) : BCBP.fromCore s ≠ .error .panic := by
  unfold BCBP.fromCore
  by_cases ha : ¬ (s.all charIsAscii = true)
  · rw [if_pos ha]; simp
  rw [if_neg ha]
  by_cases hlen : s.length < 60
  · rw [if_pos hlen]; simp
  rw [if_neg hlen]
  simp only []
  cases h1 : Chunk.fetch_char ⟨s⟩ .FormatCode with
  | error e =>
    dsimp only; intro hk; injection hk with hk2
    exact fetch_char_np _ _ (by decide) (hk2 ▸ h1)
  | ok p1 =>
  obtain ⟨code, c1⟩ := p1
  dsimp only
  by_cases hcode : code ≠ 'M'
  · rw [if_pos hcode]; simp
  rw [if_neg hcode]
  cases h2 : c1.fetch_usize .NumberOfLegsEncoded 10 with
  | error e =>
    dsimp only; intro hk; injection hk with hk2
    exact fetch_usize_np _ _ _ (by decide) (hk2 ▸ h2)
  | ok p2 =>
  obtain ⟨legs, c2⟩ := p2
  dsimp only
  by_cases hb : legs < 1 ∨ legs > 9
  · rw [if_pos hb]; simp
  rw [if_neg hb]
  cases h3 : c2.fetch_str .PassengerName with
  | error e =>
    dsimp only; intro hk; injection hk with hk2
    exact fetch_str_np _ _ (by decide) (hk2 ▸ h3)
  | ok p3 =>
  obtain ⟨nameF, c3⟩ := p3
  dsimp only
  cases h4 : c3.fetch_char .ElectronicTicketIndicator with
  | error e =>
    dsimp only; intro hk; injection hk with hk2
    exact fetch_char_np _ _ (by decide) (hk2 ▸ h4)
  | ok p4 =>
  obtain ⟨tf, c4⟩ := p4
  dsimp only
  cases h5 : parseLegsFrom 0 legs
      { name_last := (bcbp_name nameF).1,
        name_first := rustTrim ((bcbp_name nameF).2.getD []),
        ticket_flag := tf } c4 with
  | error e =>
    dsimp only; intro hk; injection hk with hk2
    exact parseLegsFrom_np _ _ _ _ (hk2 ▸ h5)
  | ok p5 =>
  obtain ⟨b5, c5⟩ := p5
  dsimp only
  exact parseSecurity_np b5 c5

/-- C9: the decoder is total — for every input it returns a library error or
a record, never reaching a panicking assertion or unwrap of chunk.rs. -/
theorem c9_no_panic (s : List Char) : BCBP.fromInput s ≠ .error .panic := by
  unfold BCBP.fromInput
  cases h1 : BCBP.fromCore s with
  | error e =>
    dsimp only; intro hk; injection hk with hk2
    exact fromCore_np s (hk2 ▸ h1)
  | ok p1 =>
    obtain ⟨b, c⟩ := p1
    dsimp only
    split <;> simp

theorem fetch_usize_all (f : Field) (radix : Nat) (v : List Char) (n : Nat)
    (hv : v.length = f.len) (h0 : f.len ≠ 0)
    (hp : rustFromStrRadix radix usizeMax v = some n) :
    Chunk.fetch_usize ⟨v⟩ f radix = .ok (n, ⟨[]⟩) := by
  have h := fetch_usize_exact f radix v [] n hv h0 hp
  simpa using h

theorem parseLegsFrom_one (i : Nat) (b : BCBP) (c : Chunk) :
    parseLegsFrom i 1 b c = parseLeg i b c := by
  unfold parseLegsFrom
  cases h : parseLeg i b c with
  | error e => rfl
  | ok p =>
    obtain ⟨b1, c1⟩ := p
    rfl

/-- C1 (amended): the mandatory round trip holds for every minimal one-leg
60-byte input in canonical form — leg count digit 1, conditional size 00, and
each variable field already equal to the re-rendering of its parsed value
(text fields left-justified space-padded with no surplus whitespace, the name
field the padded LAST/FIRST split, day, seat and sequence in their
zero-padded aligned forms).  On such inputs build (from s) returns s
exactly. -/
theorem c1_round_trip (nameF : List Char) (tf : Char) (pnrF srcF dstF alF fnoF dayF : List Char)
    (comp : Char) (seatF seqF : List Char) (st : Char)
    (hascii : (minimal60 nameF tf pnrF srcF dstF alF fnoF dayF comp seatF seqF st).all
      charIsAscii = true)
    (hname20 : nameF.length = 20) (hpnr7 : pnrF.length = 7) (hsrc3 : srcF.length = 3)
    (hdst3 : dstF.length = 3) (hal3 : alF.length = 3) (hfno5 : fnoF.length = 5)
    (hday3 : dayF.length = 3) (hseat4 : seatF.length = 4) (hseq5 : seqF.length = 5)
    (hnameC : padRight 20 ' '
      (((bcbp_name nameF).1 ++ '/' :: rustTrim ((bcbp_name nameF).2.getD [])).take 20) = nameF)
    (hpnrC : padRight 7 ' ' (rustTrim pnrF) = pnrF)
    (hsrcC : padRight 3 ' ' (rustTrim srcF) = srcF)
    (hdstC : padRight 3 ' ' (rustTrim dstF) = dstF)
    (halC : padRight 3 ' ' (rustTrim alF) = alF)
    (hfnoC : padRight 5 ' ' (rustTrim fnoF) = fnoF)
    (hdayC : padRight 3 ' ' (dayAlignedOf (u16_from_str_force dayF 10)) = dayF)
    (hseatC : padLeft 4 ' ' (seatAlignedOf (seat_opt (rustTrim seatF))) = seatF)
    (hseqC : padRight 5 ' ' (seqAlignedOf (u32_from_str_opt seqF 10)) = seqF) :
    Except.map BCBP.build
        (BCBP.fromInput (minimal60 nameF tf pnrF srcF dstF alF fnoF dayF comp seatF seqF st)) =
      .ok (minimal60 nameF tf pnrF srcF dstF alF fnoF dayF comp seatF seqF st) := by
  have hlen60 :
      (minimal60 nameF tf pnrF srcF dstF alF fnoF dayF comp seatF seqF st).length = 60 := by
    simp [minimal60, List.length_append, List.length_cons, hname20, hpnr7, hsrc3, hdst3, hal3,
      hfno5, hday3, hseat4, hseq5]
  have hfrom : BCBP.fromInput (minimal60 nameF tf pnrF srcF dstF alF fnoF dayF comp seatF seqF st) =
      .ok { name_last := (bcbp_name nameF).1,
            name_first := rustTrim ((bcbp_name nameF).2.getD []),
            ticket_flag := tf,
            legs := [{ pnr := rustTrim pnrF, src_airport := rustTrim srcF,
                       dst_airport := rustTrim dstF, airline := rustTrim alF,
                       flight_number := rustTrim fnoF,
                       flight_day := u16_from_str_force dayF 10, compartment := comp,
                       seat := seat_opt (rustTrim seatF),
                       sequence := u32_from_str_opt seqF 10, pax_status := st }] } := by
    unfold BCBP.fromInput BCBP.fromCore
    rw [if_neg (not_not_intro hascii), if_neg (by omega)]
    simp only []
    unfold minimal60
    rw [fetch_char_cons .FormatCode 'M' _ (by decide)]
    dsimp only
    rw [if_neg (by simp)]
    rw [fetch_usize_cons .NumberOfLegsEncoded 10 '1' _ 1 (by decide) (by decide)]
    dsimp only
    rw [if_neg (by omega)]
    rw [fetch_str_exact .PassengerName nameF _ hname20 (by decide)]
    dsimp only
    rw [fetch_char_cons .ElectronicTicketIndicator tf _ (by decide)]
    dsimp only
    rw [parseLegsFrom_one]
    unfold parseLeg
    rw [parseLegMandatory_spec pnrF srcF dstF alF fnoF dayF comp seatF seqF st ['0', '0']
      hpnr7 hsrc3 hdst3 hal3 hfno5 hday3 hseat4 hseq5]
    dsimp only
    rw [fetch_usize_all .FieldSizeOfVariableSizeField 16 ['0', '0'] 0 (by decide) (by decide)
      (by decide)]
    dsimp only
    rw [if_neg (by decide), if_neg (by decide)]
    dsimp only
    unfold parseSecurity
    rw [if_neg (by decide)]
    dsimp only
    rw [if_neg (by decide)]
    simp only [List.nil_append]
  rw [hfrom]
  simp only [Except.map]
  unfold BCBP.build BCBP.legs_count BCBP.name
  dsimp only
  simp only [List.map_cons, List.map_nil, List.flatten_cons, List.flatten_nil, List.append_nil,
    List.length_cons, List.length_nil, Nat.zero_add]
  unfold Leg.render Leg.flight_day_aligned Leg.seat_aligned Leg.sequence_aligned
  dsimp only
  simp only [show Nat.min 1 9 = 1 from rfl, show natDec 1 = ['1'] from by decide]
  rw [hnameC, hpnrC, hsrcC, hdstC, halC, hfnoC, hdayC, hseatC, hseqC]
  unfold minimal60
  simp [List.append_assoc]



/-- Witness for C1: the concrete sample input is canonical and round-trips
byte for byte. -/
theorem c1_round_trip_witness :
    Except.map BCBP.build (BCBP.fromInput sampleInput.toList) = .ok sampleInput.toList := by
  have h := c1_round_trip "JOHN/SMITH JORDAN   ".toList 'E' "ABCDEF ".toList "JFK".toList
    "SVO".toList "SU ".toList "1234A".toList "001".toList 'Y' "001Z".toList "0007 ".toList '0'
    (by decide) (by decide) (by decide) (by decide) (by decide) (by decide) (by decide)
    (by decide) (by decide) (by decide) (by decide) (by decide) (by decide) (by decide)
    (by decide) (by decide) (by decide) (by decide) (by decide)
  exact h

/-- Counterexample for C1 as stated: a minimal valid 60-byte input (ASCII,
conditional size 00, no security section) whose name field lacks a slash
decodes successfully but re-encodes differently, since build always inserts a
slash and re-pads the name. -/
theorem c1_counterexample :
    c1BadInput.toList.length = 60 ∧
    c1BadInput.toList[58]? = some '0' ∧ c1BadInput.toList[59]? = some '0' ∧
    (BCBP.fromInput c1BadInput.toList).isOk = true ∧
    Except.map BCBP.build (BCBP.fromInput c1BadInput.toList) ≠ .ok c1BadInput.toList := by
  refine ⟨?_, ?_, ?_, ?_, ?_⟩ <;> decide

end IataBcbp
